import Mathlib

/-!
# who-s-oncall-slack: the on-call pipeline

A shallow embedding of `oncall.go` and `types.go`.

* Go structs become Lean structures with the same field names.
* A method on `*OnCall` mutates the session through its pointer and may end the
  process through `log.Fatalf`.  It becomes a function from the machine state
  (the session plus everything the process has emitted so far) to an `Outcome`:
  either the method returned, or the process exited.
* What the remote services answer is not decided by the program: the answers
  are the fields of a `World`, over which every theorem quantifies.
* Go `int` is `Int`; the program does no arithmetic on it.
-/

namespace OnCallSlack

/-! ## Go slices -/

/-- A Go slice value.  `Slice.nil` is the nil slice (the zero value of a slice
type), `Slice.mk xs` a non-nil slice holding `xs`. -/
inductive Slice (α : Type) where
  | nil : Slice α
  | mk (elems : List α) : Slice α
  deriving DecidableEq, Repr

/-- The elements a `for ... range` over the slice visits, in order. -/
def Slice.elems {α : Type} : Slice α → List α
  | .nil => []
  | .mk xs => xs

/-- Go `len(s)`. -/
def Slice.len {α : Type} (s : Slice α) : Nat := s.elems.length

/-- Go `append(s, x)`: the result is never nil. -/
def Slice.append {α : Type} (s : Slice α) (x : α) : Slice α :=
  .mk (s.elems ++ [x])

/-- Go `make([]T, 0)`: a non-nil slice of length zero. -/
def Slice.make0 {α : Type} : Slice α := .mk []

/-! ## types.go

The structs as Go values.  The `json` tags of the webhook payload types are
applied where the body is encoded, in the section on the JSON payload. -/

structure SquadcastErrorDetails where
  Status : Int
  ErrorMessage : String
  deriving DecidableEq, Repr

structure SquadcastErrorResponse where
  Meta : SquadcastErrorDetails
  deriving DecidableEq, Repr

structure AccessTokenDetails where
  AccessToken : String
  deriving DecidableEq, Repr

structure AccessTokenResponse where
  Data : AccessTokenDetails
  deriving DecidableEq, Repr

structure TeamsDetails where
  ID : String
  Name : String
  deriving DecidableEq, Repr

/-- The decoded teams listing.  The program only ranges over `Data`, so the
slice is kept as the list of its elements. -/
structure TeamsResponse where
  Data : List TeamsDetails
  deriving DecidableEq, Repr

structure Contact where
  DialCode : String
  PhoneNumber : String
  deriving DecidableEq, Repr

structure OnCallPerson where
  ID : String
  FirstName : String
  LastName : String
  UsernameForDisplay : String
  Email : String
  Contact : Contact
  deriving DecidableEq, Repr

structure Rotation where
  CreatedAt : String
  UpdatedAt : String
  DeletedAt : String
  ID : Int
  Name : String
  deriving DecidableEq, Repr

structure Schedule where
  CreatedAt : String
  UpdatedAt : String
  DeletedAt : String
  ID : Int
  Name : String
  Rotations : List Rotation
  deriving DecidableEq, Repr

/-- One assignment record of the roster response. -/
structure Data where
  Schedule : Schedule
  Oncall : List OnCallPerson
  deriving DecidableEq, Repr

structure OnCallApiResponse where
  Data : List Data
  deriving DecidableEq, Repr

structure SlackWebhookAttachmentFields where
  Title : String
  Value : String
  Short : Bool
  deriving DecidableEq, Repr

structure SlackWebhookAttachment where
  Fallback : String
  Pretext : String
  Color : String
  Fields : Slice SlackWebhookAttachmentFields
  deriving DecidableEq, Repr

structure SlackWebhookRequest where
  Text : String
  Channel : String
  Username : String
  IconURL : String
  IconEmoji : String
  Attachments : Slice SlackWebhookAttachment
  deriving DecidableEq, Repr

/-- One entry of the `schedules` selection of the GraphQL query, declared inside
`GetScheduleID`. -/
structure ScheduleEntry where
  Name : String
  ID : Int
  deriving DecidableEq, Repr

/-- The local type `ScheduleQuery` of `GetScheduleID`. -/
structure ScheduleQuery where
  Schedules : List ScheduleEntry
  deriving DecidableEq, Repr

/-! ## oncall.go: constants and the session -/

def SCHEME : String := "https"
def SQUADCAST_HOST : String := "api.eu.squadcast.com"
def SQUADCAST_OAUTH_HOST : String := "auth.eu.squadcast.com"
def ACCESS_TOKEN_PATH : String := "oauth/access-token"
def GRAPHQL_PATH : String := "v3/graphql"
def TEAMS_PATH : String := "/v3/teams"
def ONCALL_PATH : String := "/v4/schedules/who-is-oncall"

structure OnCall where
  RefreshToken : String
  ScheduleName : String
  TeamName : String
  TeamID : String
  SlackWebhookURL : String
  AccessToken : String
  ScheduleID : Int
  OnCallShiftType : String
  OnCallResponders : Slice String
  deriving DecidableEq, Repr

/-- Modelled from the spec: the declaration of `Params` is not among the
sources.  The configuration surface is "refresh token, schedule name, team
name, webhook URL", and these are the four fields `NewOnCall` reads. -/
structure Params where
  RefreshToken : String
  ScheduleName : String
  TeamName : String
  SlackWebhookURL : String
  deriving DecidableEq, Repr

/-- The constructor `NewOnCall`: the four configured fields are copied, every
other field has the zero value of its type. -/
def NewOnCall (params : Params) : OnCall :=
  { RefreshToken := params.RefreshToken
    ScheduleName := params.ScheduleName
    SlackWebhookURL := params.SlackWebhookURL
    TeamName := params.TeamName
    TeamID := ""
    AccessToken := ""
    ScheduleID := 0
    OnCallShiftType := ""
    OnCallResponders := .nil }

/-! ## net/url and strconv -/

/-- Go `url.Values`, a `map[string][]string`, as an association list with
distinct keys. -/
abbrev Values := List (String × List String)

/-- The keys of the map. -/
def Values.keys (v : Values) : List String := v.map Prod.fst

/-- The map lookup `v[key]`. -/
def Values.lookup (v : Values) (key : String) : Option (List String) :=
  (v.find? (fun kv => kv.1 == key)).map Prod.snd

/-- Go `Values.Add`: `v[key] = append(v[key], value)`. -/
def Values.Add (v : Values) (key value : String) : Values :=
  if v.any (fun kv => kv.1 == key) then
    v.map (fun kv => if kv.1 == key then (kv.1, kv.2 ++ [value]) else kv)
  else
    v ++ [(key, [value])]

/-- Go `strconv.Itoa`: the base-10 numeral of an integer, with a leading minus
sign for a negative one.  The digits are those of core `Nat.toDigits 10`. -/
def Itoa (i : Int) : String :=
  if i < 0 then String.mk ('-' :: Nat.toDigits 10 i.natAbs)
  else String.mk (Nat.toDigits 10 i.toNat)

/-- The fields of `url.URL` the program sets before calling `String`. -/
structure URL where
  Scheme : String
  Host : String
  Path : String
  deriving DecidableEq, Repr

/-- Go `(*url.URL).String` for a URL with scheme, host and a path of plain
characters: a slash is put between host and path when the path has none. -/
def URL.String (u : URL) : String :=
  u.Scheme ++ "://" ++ u.Host ++
    (if u.Path ≠ "" ∧ u.Path.front ≠ '/' then "/" else "") ++ u.Path

/-! ## The process: requests, emitted events, outcomes -/

/-- A request as assembled through the request builder.  The query string of
the roster call is kept as the `Values` it encodes. -/
structure Request where
  Method : String
  URL : String
  Query : Values
  Header : List (String × String)
  Body : Option SlackWebhookRequest
  deriving DecidableEq, Repr

/-- What the process does that is visible from outside, in order. -/
inductive Event where
  | http (req : Request)
  | graphql (endpoint : String) (token : String) (vars : List (String × String))
  | fatal (msg : String)
  deriving DecidableEq, Repr

/-- What `Do` leaves behind: the returned error (`none` is Go `nil`), the value
decoded into the `With` target, and the value decoded into the `WithFail`
target. -/
structure Reply (ρ ε : Type) where
  err : Option String
  resp : ρ
  fail : ε

/-- The answers of the remote services, as functions of what they are sent. -/
structure World where
  accessToken : Request → Reply AccessTokenResponse SquadcastErrorResponse
  teams : Request → Reply TeamsResponse SquadcastErrorResponse
  schedules : String → String → List (String × String) → Option String × ScheduleQuery
  oncall : Request → Reply OnCallApiResponse SquadcastErrorResponse
  slack : Request → Reply String String

/-- The session together with everything emitted so far. -/
structure Machine where
  oc : OnCall
  out : List Event
  deriving DecidableEq, Repr

/-- How a method call ends: it returns to its caller, or the process has
exited with a status. -/
inductive Outcome where
  | returned (m : Machine)
  | exited (status : Nat) (m : Machine)
  deriving DecidableEq, Repr

/-- Sequencing of statements: nothing runs after the process has exited. -/
def Outcome.andThen : Outcome → (Machine → Outcome) → Outcome
  | .returned m, k => k m
  | .exited status m, _ => .exited status m

/-- Go `log.Fatalf`: the formatted message is written to the standard logger,
then `os.Exit(1)` is called. -/
def Fatalf (msg : String) (m : Machine) : Outcome :=
  .exited 1 { m with out := m.out ++ [Event.fatal msg] }

/-- Modelled from the spec: the request builder `NewRequest()` is not among the
sources; the spec treats it as an external collaborator exposing
`Get/Post/SetHeader/Data/With/WithFail/Do`.  `Do` sends the assembled request
(recorded in the emitted events) and hands back the error and the decoded
targets. -/
def Do {ρ ε : Type} (answer : Request → Reply ρ ε) (req : Request) (m : Machine) :
    Machine × Reply ρ ε :=
  ({ m with out := m.out ++ [Event.http req] }, answer req)

/-! ## oncall.go: the five stages -/

/-- The request `GetAccessToken` assembles. -/
def GetAccessToken.request (oc : OnCall) : Request :=
  { Method := "GET"
    URL := URL.String
      { Scheme := SCHEME, Host := SQUADCAST_OAUTH_HOST, Path := ACCESS_TOKEN_PATH }
    Query := []
    Header := [("X-Refresh-Token", oc.RefreshToken)]
    Body := none }

/-- The method `GetAccessToken`. -/
def GetAccessToken (w : World) (m : Machine) : Outcome :=
  let d := Do w.accessToken (GetAccessToken.request m.oc) m
  (match d.2.err with
    | some err => Fatalf (err ++ " : " ++ d.2.fail.Meta.ErrorMessage) d.1
    | none => Outcome.returned d.1).andThen fun m1 =>
  Outcome.returned { m1 with oc := { m1.oc with AccessToken := d.2.resp.Data.AccessToken } }

/-- The loop of `GetTeamID` over `resp.Data`: the first entry whose name equals
`oc.TeamName` sets `oc.TeamID` and breaks out. -/
def GetTeamID.loop (oc : OnCall) : List TeamsDetails → OnCall
  | [] => oc
  | team :: rest =>
    if team.Name = oc.TeamName then { oc with TeamID := team.ID }
    else GetTeamID.loop oc rest

/-- The request `GetTeamID` assembles. -/
def GetTeamID.request (oc : OnCall) : Request :=
  { Method := "GET"
    URL := URL.String { Scheme := SCHEME, Host := SQUADCAST_HOST, Path := TEAMS_PATH }
    Query := []
    Header := [("Authorization", "Bearer " ++ oc.AccessToken)]
    Body := none }

/-- The method `GetTeamID`. -/
def GetTeamID (w : World) (m : Machine) : Outcome :=
  let d := Do w.teams (GetTeamID.request m.oc) m
  (match d.2.err with
    | some err => Fatalf (err ++ " : " ++ d.2.fail.Meta.ErrorMessage) d.1
    | none => Outcome.returned d.1).andThen fun m1 =>
  let m2 : Machine := { m1 with oc := GetTeamID.loop m1.oc d.2.resp.Data }
  (if m2.oc.TeamID = "" then
    Fatalf ("Team of name: " ++ m2.oc.TeamName ++ " doesn't exist") m2
  else Outcome.returned m2)

/-- The endpoint `executeGraphQLQuery` hands to `graphql.NewClient`. -/
def graphqlEndpoint : String := SCHEME ++ "://" ++ SQUADCAST_HOST ++ "/" ++ GRAPHQL_PATH

/-- The function `executeGraphQLQuery`: one query against the GraphQL endpoint
with the bearer token; it hands back the error of `client.Query` and the value
decoded into `query`. -/
def executeGraphQLQuery (w : World) (vars : List (String × String)) (accessToken : String)
    (m : Machine) : Machine × (Option String × ScheduleQuery) :=
  ({ m with out := m.out ++ [Event.graphql graphqlEndpoint accessToken vars] },
    w.schedules graphqlEndpoint accessToken vars)

/-- The variables `GetScheduleID` passes to the query. -/
def GetScheduleID.variables (oc : OnCall) : List (String × String) :=
  [("teamID", oc.TeamID), ("scheduleName", oc.ScheduleName)]

/-- The loop of `GetScheduleID` over `query.Schedules`: the first entry whose
name equals `oc.ScheduleName` sets `oc.ScheduleID` and breaks out. -/
def GetScheduleID.loop (oc : OnCall) : List ScheduleEntry → OnCall
  | [] => oc
  | sch :: rest =>
    if sch.Name = oc.ScheduleName then { oc with ScheduleID := sch.ID }
    else GetScheduleID.loop oc rest

/-- The method `GetScheduleID`.  The error branch holds two `log.Fatalf` calls
in sequence, as the source does. -/
def GetScheduleID (w : World) (m : Machine) : Outcome :=
  let d := executeGraphQLQuery w (GetScheduleID.variables m.oc) m.oc.AccessToken m
  (match d.2.1 with
    | some err =>
      (Fatalf ("There is an error fetching the schedule id for the schedule name:" ++
          d.1.oc.ScheduleName) d.1).andThen
        (Fatalf ("Error:" ++ err))
    | none => Outcome.returned d.1).andThen fun m1 =>
  let m2 : Machine := { m1 with oc := GetScheduleID.loop m1.oc d.2.2.Schedules }
  (if m2.oc.ScheduleID = 0 then
    Fatalf ("Schedule of name: " ++ m2.oc.ScheduleName ++ " doesn't exist") m2
  else Outcome.returned m2)

/-- The query parameters `GetOnCallPeople` builds: `url.Values` with two `Add`
calls. -/
def GetOnCallPeople.queryParams (oc : OnCall) : Values :=
  (Values.Add [] "teamId" oc.TeamID).Add "scheduleID" (Itoa oc.ScheduleID)

/-- The inner loop of `GetOnCallPeople` over `data.Oncall`. -/
def GetOnCallPeople.inner (oc : OnCall) : List OnCallPerson → OnCall
  | [] => oc
  | onCallResponder :: rest =>
    let name := onCallResponder.FirstName ++ " " ++ onCallResponder.LastName
    GetOnCallPeople.inner { oc with OnCallResponders := oc.OnCallResponders.append name } rest

/-- The outer loop of `GetOnCallPeople` over `resp.Data`. -/
def GetOnCallPeople.loop (oc : OnCall) : List Data → OnCall
  | [] => oc
  | data :: rest => GetOnCallPeople.loop (GetOnCallPeople.inner oc data.Oncall) rest

/-- The request `GetOnCallPeople` assembles. -/
def GetOnCallPeople.request (oc : OnCall) : Request :=
  { Method := "GET"
    URL := URL.String { Scheme := SCHEME, Host := SQUADCAST_HOST, Path := ONCALL_PATH }
    Query := GetOnCallPeople.queryParams oc
    Header := [("Authorization", "Bearer " ++ oc.AccessToken)]
    Body := none }

/-- The method `GetOnCallPeople`. -/
def GetOnCallPeople (w : World) (m : Machine) : Outcome :=
  let d := Do w.oncall (GetOnCallPeople.request m.oc) m
  (match d.2.err with
    | some err => Fatalf (err ++ " : " ++ d.2.fail.Meta.ErrorMessage) d.1
    | none => Outcome.returned d.1).andThen fun m1 =>
  Outcome.returned { m1 with oc := GetOnCallPeople.loop m1.oc d.2.resp.Data }

/-- The loop of `NotifySlack` over `oc.OnCallResponders`: one field per
responder, with only `Title` set. -/
def NotifySlack.loop (fields : Slice SlackWebhookAttachmentFields) :
    List String → Slice SlackWebhookAttachmentFields
  | [] => fields
  | user :: rest =>
    NotifySlack.loop (fields.append { Title := user, Value := "", Short := false }) rest

/-- The value `body` that `NotifySlack` builds. -/
def NotifySlack.body (oc : OnCall) : SlackWebhookRequest :=
  let fields := NotifySlack.loop Slice.make0 oc.OnCallResponders.elems
  { Text := ""
    Channel := ""
    Username := ""
    IconURL := ""
    IconEmoji := ""
    Attachments := Slice.mk
      [{ Fallback := "On-Call Update for schedule: " ++ oc.ScheduleName
         Pretext := "People on-call for schedule: " ++ oc.ScheduleName
         Color := "#00FF00"
         Fields := fields }] }

/-- The request `NotifySlack` assembles. -/
def NotifySlack.request (oc : OnCall) : Request :=
  { Method := "POST"
    URL := oc.SlackWebhookURL
    Query := []
    Header := []
    Body := some (NotifySlack.body oc) }

/-- The method `NotifySlack`. -/
def NotifySlack (w : World) (m : Machine) : Outcome :=
  let d := Do w.slack (NotifySlack.request m.oc) m
  (match d.2.err with
    | some err => Fatalf (err ++ " : " ++ d.2.fail) d.1
    | none => Outcome.returned d.1)

/-! ## The JSON payload -/

/-- A JSON value, as far as the webhook payload needs it. -/
inductive Json where
  | str (s : String)
  | bool (b : Bool)
  | arr (items : List Json)
  | obj (members : List (String × Json))

/-- The keys of a JSON object, in order; no keys for any other value. -/
def Json.keys : Json → List String
  | .obj members => members.map Prod.fst
  | _ => []

/-- A string field tagged `omitempty`: left out when it is the empty string. -/
def omitemptyString (key : String) (s : String) : List (String × Json) :=
  if s = "" then [] else [(key, Json.str s)]

/-- A boolean field tagged `omitempty`: left out when it is false. -/
def omitemptyBool (key : String) (b : Bool) : List (String × Json) :=
  if b = false then [] else [(key, Json.bool b)]

/-- A slice field tagged `omitempty`: left out when its length is zero, be it
nil or not. -/
def omitemptySlice {α : Type} (key : String) (s : Slice α) (encode : α → Json) :
    List (String × Json) :=
  if s.len = 0 then [] else [(key, Json.arr (s.elems.map encode))]

/-- Modelled from the spec: the request helper whose `Data` takes the body is
not among the sources; the spec says the Notifier "POSTs as JSON".  The object
follows the `json` tags of `SlackWebhookAttachmentFields` in types.go, each with
`omitempty`. -/
def SlackWebhookAttachmentFields.encode (f : SlackWebhookAttachmentFields) : Json :=
  Json.obj
    (omitemptyString "title" f.Title ++ omitemptyString "value" f.Value ++
      omitemptyBool "short" f.Short)

/-- Modelled from the spec: the request helper whose `Data` takes the body is
not among the sources; the spec says the Notifier "POSTs as JSON".  The object
follows the `json` tags of `SlackWebhookAttachment` in types.go, each with
`omitempty`. -/
def SlackWebhookAttachment.encode (a : SlackWebhookAttachment) : Json :=
  Json.obj
    (omitemptyString "fallback" a.Fallback ++ omitemptyString "pretext" a.Pretext ++
      omitemptyString "color" a.Color ++
      omitemptySlice "fields" a.Fields SlackWebhookAttachmentFields.encode)

/-- Modelled from the spec: the request helper whose `Data` takes the body is
not among the sources; the spec says the Notifier "POSTs as JSON".  The object
follows the `json` tags of `SlackWebhookRequest` in types.go, each with
`omitempty`. -/
def SlackWebhookRequest.encode (r : SlackWebhookRequest) : Json :=
  Json.obj
    (omitemptyString "text" r.Text ++ omitemptyString "channel" r.Channel ++
      omitemptyString "username" r.Username ++ omitemptyString "icon_url" r.IconURL ++
      omitemptyString "icon_emoji" r.IconEmoji ++
      omitemptySlice "attachments" r.Attachments SlackWebhookAttachment.encode)

/-- The JSON text of a request with a body, as a JSON value. -/
def Request.payload (req : Request) : Option Json :=
  req.Body.map SlackWebhookRequest.encode

/-! ## The run -/

/-- Modelled from the spec: the top-level orchestrator is not among the
sources.  The spec gives the call order "Token Acquirer, Team Resolver,
Schedule Resolver, On-Call Fetcher, Notifier", strictly linear. -/
def stages : List (World → Machine → Outcome) :=
  [GetAccessToken, GetTeamID, GetScheduleID, GetOnCallPeople, NotifySlack]

/-- Runs the given stages one after the other on a machine. -/
def runStages (w : World) : List (World → Machine → Outcome) → Machine → Outcome
  | [], m => Outcome.returned m
  | stage :: rest, m => (stage w m).andThen (runStages w rest)

/-- Modelled from the spec: the top-level orchestrator is not among the
sources.  A run builds the session from the configuration with `NewOnCall`
and calls the five stages in order. -/
def run (w : World) (params : Params) : Outcome :=
  runStages w stages { oc := NewOnCall params, out := [] }

/-! ## Reading things back -/

/-- The event is a POST sent through the request builder.  The GraphQL query
is an event of its own kind, so in this program only the webhook delivery of
`NotifySlack` is such an event. -/
def Event.isPost : Event → Bool
  | .http req => decide (req.Method = "POST")
  | _ => false

/-- The machine an outcome ends in. -/
def Outcome.machine : Outcome → Machine
  | .returned m => m
  | .exited _ m => m

/-- The value of a string of decimal digits read left to right from `acc`;
`none` when a character is not a decimal digit. -/
def readDigits : List Char → Nat → Option Nat
  | [], acc => some acc
  | c :: cs, acc =>
    if c.isDigit then readDigits cs (acc * 10 + (c.toNat - 48)) else none

/-- Reads a decimal integer: an optional minus sign followed by one or more
decimal digits. -/
def parseDecimal (s : String) : Option Int :=
  match s.data with
  | [] => none
  | c :: cs =>
    if c = '-' then
      (if cs = [] then none else (readDigits cs 0).map (fun (n : Nat) => - Int.ofNat n))
    else (readDigits (c :: cs) 0).map (fun (n : Nat) => Int.ofNat n)

/-- The display name of a person, as the roster loop formats it. -/
def displayName (p : OnCallPerson) : String := p.FirstName ++ " " ++ p.LastName

/-- The first entry of a teams list with the given name, in list order. -/
def firstTeam (name : String) (teams : List TeamsDetails) : Option TeamsDetails :=
  teams.find? (fun t => decide (t.Name = name))

/-- The first entry of a schedules list with the given name, in list order. -/
def firstSchedule (name : String) (schedules : List ScheduleEntry) : Option ScheduleEntry :=
  schedules.find? (fun s => decide (s.Name = name))

/-- The configured inputs of a session. -/
def configOf (oc : OnCall) : Params :=
  { RefreshToken := oc.RefreshToken
    ScheduleName := oc.ScheduleName
    TeamName := oc.TeamName
    SlackWebhookURL := oc.SlackWebhookURL }

/-! ## Sample inputs

The scenarios of the specification as concrete worlds. -/

/-- An empty provider error body. -/
def noFail : SquadcastErrorResponse := { Meta := { Status := 0, ErrorMessage := "" } }

/-- A schedule description with an identifier and a name only. -/
def plainSchedule (id : Int) (name : String) : Schedule :=
  { CreatedAt := "", UpdatedAt := "", DeletedAt := "", ID := id, Name := name, Rotations := [] }

/-- The person of the roster scenario. -/
def janeDoe : OnCallPerson :=
  { ID := "u1", FirstName := "Jane", LastName := "Doe", UsernameForDisplay := "jane"
    Email := "jane@example.org", Contact := { DialCode := "+1", PhoneNumber := "5550100" } }

/-- A configuration naming team `B` and schedule `primary`. -/
def sampleParams : Params :=
  { RefreshToken := "refresh", ScheduleName := "primary", TeamName := "B"
    SlackWebhookURL := "https://hooks.example.org/T" }

/-- A configuration naming a team and a schedule the provider does not have. -/
def strayParams : Params :=
  { RefreshToken := "refresh", ScheduleName := "secondary", TeamName := "C"
    SlackWebhookURL := "https://hooks.example.org/T" }

/-- Every call succeeds: teams `t1/A` and `t2/B`, schedule `primary` with ID
1936, a roster of two records, the first with Jane Doe, the second empty. -/
def sampleWorld : World :=
  { accessToken := fun _ =>
      { err := none, resp := { Data := { AccessToken := "tok" } }, fail := noFail }
    teams := fun _ =>
      { err := none
        resp := { Data := [{ ID := "t1", Name := "A" }, { ID := "t2", Name := "B" }] }
        fail := noFail }
    schedules := fun _ _ _ => (none, { Schedules := [{ Name := "primary", ID := 1936 }] })
    oncall := fun _ =>
      { err := none
        resp := { Data :=
          [{ Schedule := plainSchedule 1936 "primary", Oncall := [janeDoe] },
           { Schedule := plainSchedule 1936 "primary", Oncall := [] }] }
        fail := noFail }
    slack := fun _ => { err := none, resp := "ok", fail := "" } }

/-- As `sampleWorld`, but the only team named `B` has the empty string as ID. -/
def emptyTeamIDWorld : World :=
  { sampleWorld with
    teams := fun _ =>
      { err := none
        resp := { Data := [{ ID := "t1", Name := "A" }, { ID := "", Name := "B" }] }
        fail := noFail } }

/-- As `sampleWorld`, but the schedule named `primary` has ID 0. -/
def zeroScheduleIDWorld : World :=
  { sampleWorld with
    schedules := fun _ _ _ => (none, { Schedules := [{ Name := "primary", ID := 0 }] }) }

/-- As `sampleWorld`, but the GraphQL query returns the error `boom`. -/
def queryErrorWorld : World :=
  { sampleWorld with
    schedules := fun _ _ _ => (some "boom", { Schedules := [] }) }

/-- As `sampleWorld`, but the teams request is refused. -/
def teamsRefusedWorld : World :=
  { sampleWorld with
    teams := fun _ =>
      { err := some "401 Unauthorized"
        resp := { Data := [] }
        fail := { Meta := { Status := 401, ErrorMessage := "invalid token" } } } }

/-! ## Decimal numerals -/

theorem digitChar_isDigit : ∀ d, d < 10 →
    (Nat.digitChar d).isDigit = true ∧ (Nat.digitChar d).toNat - 48 = d := by
  decide

theorem readDigits_append (xs ys : List Char) (acc : Nat) :
    readDigits (xs ++ ys) acc = (readDigits xs acc).bind (readDigits ys) := by
  induction xs generalizing acc with
  | nil => simp [readDigits]
  | cons c cs ih =>
    simp only [List.cons_append, readDigits]
    split
    · exact ih _
    · rfl

theorem toDigitsCore_append (fuel : Nat) : ∀ (n : Nat) (ds : List Char),
    Nat.toDigitsCore 10 fuel n ds = Nat.toDigitsCore 10 fuel n [] ++ ds := by
  induction fuel with
  | zero => intro n ds; simp [Nat.toDigitsCore]
  | succ fuel ih =>
    intro n ds
    simp only [Nat.toDigitsCore]
    split
    · simp
    · rw [ih (n / 10) (Nat.digitChar (n % 10) :: ds), ih (n / 10) [Nat.digitChar (n % 10)]]
      simp

theorem readDigits_toDigitsCore (fuel : Nat) : ∀ n, n < fuel →
    readDigits (Nat.toDigitsCore 10 fuel n []) 0 = some n := by
  induction fuel with
  | zero => intro n h; omega
  | succ fuel ih =>
    intro n h
    have hd := digitChar_isDigit (n % 10) (Nat.mod_lt _ (by decide))
    simp only [Nat.toDigitsCore]
    split
    · rename_i h0
      have hn : n % 10 = n := by omega
      simp only [readDigits, hd.1, if_true, hd.2, Nat.zero_mul, Nat.zero_add]
      rw [hn]
    · rename_i h0
      rw [toDigitsCore_append, readDigits_append, ih (n / 10) (by omega)]
      simp only [Option.some_bind, readDigits, hd.1, hd.2, if_true]
      congr 1
      omega

theorem readDigits_toDigits (n : Nat) : readDigits (Nat.toDigits 10 n) 0 = some n :=
  readDigits_toDigitsCore (n + 1) n (Nat.lt_succ_self n)

theorem toDigits_ne_nil (n : Nat) : Nat.toDigits 10 n ≠ [] := by
  unfold Nat.toDigits
  simp only [Nat.toDigitsCore]
  split
  · simp
  · rw [toDigitsCore_append]
    simp

theorem parseDecimal_Itoa (i : Int) : parseDecimal (Itoa i) = some i := by
  unfold Itoa
  by_cases h : i < 0
  · have hr := readDigits_toDigits i.natAbs
    simp only [h, if_true, parseDecimal, toDigits_ne_nil, if_false, hr, Option.map_some']
    congr 1
    simp only [Int.ofNat_eq_coe]
    omega
  · have hr := readDigits_toDigits i.toNat
    simp only [h, if_false, parseDecimal]
    cases hds : Nat.toDigits 10 i.toNat with
    | nil => exact absurd hds (toDigits_ne_nil _)
    | cons c cs =>
      rw [hds] at hr
      have hc : c ≠ '-' := by
        intro hc
        rw [hc] at hr
        simp [readDigits] at hr
      simp only [hc, if_false, hr, Option.map_some']
      congr 1
      simp only [Int.ofNat_eq_coe]
      omega

/-! ## The loops -/

theorem GetTeamID_loop_eq (oc : OnCall) (teams : List TeamsDetails) :
    GetTeamID.loop oc teams =
      match firstTeam oc.TeamName teams with
      | some t => { oc with TeamID := t.ID }
      | none => oc := by
  induction teams with
  | nil => rfl
  | cons t rest ih =>
    by_cases h : t.Name = oc.TeamName
    · simp [GetTeamID.loop, firstTeam, List.find?, h]
    · simpa [GetTeamID.loop, firstTeam, List.find?, h] using ih

theorem GetScheduleID_loop_eq (oc : OnCall) (schedules : List ScheduleEntry) :
    GetScheduleID.loop oc schedules =
      match firstSchedule oc.ScheduleName schedules with
      | some s => { oc with ScheduleID := s.ID }
      | none => oc := by
  induction schedules with
  | nil => rfl
  | cons s rest ih =>
    by_cases h : s.Name = oc.ScheduleName
    · simp [GetScheduleID.loop, firstSchedule, List.find?, h]
    · simpa [GetScheduleID.loop, firstSchedule, List.find?, h] using ih

theorem firstTeam_eq_none (name : String) (teams : List TeamsDetails) :
    firstTeam name teams = none ↔ ∀ t ∈ teams, t.Name ≠ name := by
  simp [firstTeam, List.find?_eq_none]

theorem firstSchedule_eq_none (name : String) (schedules : List ScheduleEntry) :
    firstSchedule name schedules = none ↔ ∀ s ∈ schedules, s.Name ≠ name := by
  simp [firstSchedule, List.find?_eq_none]

theorem firstTeam_of_unique (name : String) (teams : List TeamsDetails) (t : TeamsDetails)
    (hmem : t ∈ teams) (hname : t.Name = name)
    (hcount : teams.countP (fun x => decide (x.Name = name)) = 1) :
    firstTeam name teams = some t := by
  induction teams with
  | nil => simp at hmem
  | cons a rest ih =>
    by_cases ha : a.Name = name
    · have hrest : rest.countP (fun x => decide (x.Name = name)) = 0 := by
        simpa [List.countP_cons, ha] using hcount
      rcases List.mem_cons.mp hmem with h | h
      · subst h
        simp [firstTeam, List.find?, hname]
      · have hno := List.countP_eq_zero.mp hrest t h
        simp [hname] at hno
    · have hrest : rest.countP (fun x => decide (x.Name = name)) = 1 := by
        simpa [List.countP_cons, ha] using hcount
      rcases List.mem_cons.mp hmem with h | h
      · subst h
        exact absurd hname ha
      · simpa [firstTeam, List.find?, ha] using ih h hrest

theorem GetOnCallPeople_inner_frame (people : List OnCallPerson) : ∀ oc : OnCall,
    GetOnCallPeople.inner oc people =
      { oc with OnCallResponders := (GetOnCallPeople.inner oc people).OnCallResponders } := by
  induction people with
  | nil => intro oc; rfl
  | cons p rest ih =>
    intro oc
    simp only [GetOnCallPeople.inner]
    rw [ih]

theorem GetOnCallPeople_inner_elems (people : List OnCallPerson) : ∀ oc : OnCall,
    (GetOnCallPeople.inner oc people).OnCallResponders.elems =
      oc.OnCallResponders.elems ++ people.map displayName := by
  induction people with
  | nil => intro oc; simp [GetOnCallPeople.inner]
  | cons p rest ih =>
    intro oc
    simp only [GetOnCallPeople.inner]
    rw [ih]
    simp [Slice.append, Slice.elems, displayName]

theorem GetOnCallPeople_loop_frame (records : List Data) : ∀ oc : OnCall,
    GetOnCallPeople.loop oc records =
      { oc with OnCallResponders := (GetOnCallPeople.loop oc records).OnCallResponders } := by
  induction records with
  | nil => intro oc; rfl
  | cons d rest ih =>
    intro oc
    simp only [GetOnCallPeople.loop]
    rw [ih, GetOnCallPeople_inner_frame]

theorem GetOnCallPeople_loop_elems (records : List Data) : ∀ oc : OnCall,
    (GetOnCallPeople.loop oc records).OnCallResponders.elems =
      oc.OnCallResponders.elems ++ records.flatMap (fun d => d.Oncall.map displayName) := by
  induction records with
  | nil => intro oc; simp [GetOnCallPeople.loop]
  | cons d rest ih =>
    intro oc
    simp only [GetOnCallPeople.loop]
    rw [ih, GetOnCallPeople_inner_elems]
    simp [List.flatMap_cons]

theorem NotifySlack_loop_eq (users : List String) :
    ∀ fields : Slice SlackWebhookAttachmentFields,
    NotifySlack.loop fields users =
      if users = [] then fields
      else Slice.mk (fields.elems ++
        users.map (fun user => { Title := user, Value := "", Short := false })) := by
  induction users with
  | nil => intro fields; rfl
  | cons u rest ih =>
    intro fields
    simp only [NotifySlack.loop]
    rw [ih]
    by_cases h : rest = []
    · simp [h, Slice.append]
    · simp [h, Slice.append, Slice.elems]

theorem NotifySlack_fields_eq (users : List String) :
    NotifySlack.loop Slice.make0 users =
      Slice.mk (users.map (fun user => { Title := user, Value := "", Short := false })) := by
  rw [NotifySlack_loop_eq]
  by_cases h : users = []
  · simp [h, Slice.make0]
  · simp [h, Slice.make0, Slice.elems]

/-! ## The stages in closed form -/

theorem GetAccessToken_eq (w : World) (m : Machine) :
    GetAccessToken w m =
      match (w.accessToken (GetAccessToken.request m.oc)).err with
      | some err =>
        Outcome.exited 1
          { oc := m.oc
            out := m.out ++ [Event.http (GetAccessToken.request m.oc),
              Event.fatal (err ++ " : " ++
                (w.accessToken (GetAccessToken.request m.oc)).fail.Meta.ErrorMessage)] }
      | none =>
        Outcome.returned
          { oc := { m.oc with AccessToken :=
                      (w.accessToken (GetAccessToken.request m.oc)).resp.Data.AccessToken }
            out := m.out ++ [Event.http (GetAccessToken.request m.oc)] } := by
  unfold GetAccessToken
  cases h : (w.accessToken (GetAccessToken.request m.oc)).err <;>
    simp [Do, Outcome.andThen, Fatalf, h]

theorem GetTeamID_eq (w : World) (m : Machine) :
    GetTeamID w m =
      match (w.teams (GetTeamID.request m.oc)).err with
      | some err =>
        Outcome.exited 1
          { oc := m.oc
            out := m.out ++ [Event.http (GetTeamID.request m.oc),
              Event.fatal (err ++ " : " ++
                (w.teams (GetTeamID.request m.oc)).fail.Meta.ErrorMessage)] }
      | none =>
        if (GetTeamID.loop m.oc (w.teams (GetTeamID.request m.oc)).resp.Data).TeamID = "" then
          Outcome.exited 1
            { oc := GetTeamID.loop m.oc (w.teams (GetTeamID.request m.oc)).resp.Data
              out := m.out ++ [Event.http (GetTeamID.request m.oc),
                Event.fatal ("Team of name: " ++
                  (GetTeamID.loop m.oc (w.teams (GetTeamID.request m.oc)).resp.Data).TeamName ++
                  " doesn't exist")] }
        else
          Outcome.returned
            { oc := GetTeamID.loop m.oc (w.teams (GetTeamID.request m.oc)).resp.Data
              out := m.out ++ [Event.http (GetTeamID.request m.oc)] } := by
  unfold GetTeamID
  cases h : (w.teams (GetTeamID.request m.oc)).err
  · simp only [Do, Outcome.andThen, Fatalf, h]
    split <;> simp
  · simp [Do, Outcome.andThen, Fatalf, h]

theorem GetScheduleID_eq (w : World) (m : Machine) :
    GetScheduleID w m =
      match (w.schedules graphqlEndpoint m.oc.AccessToken (GetScheduleID.variables m.oc)).1 with
      | some _ =>
        Outcome.exited 1
          { oc := m.oc
            out := m.out ++
              [Event.graphql graphqlEndpoint m.oc.AccessToken (GetScheduleID.variables m.oc),
               Event.fatal
                ("There is an error fetching the schedule id for the schedule name:" ++
                  m.oc.ScheduleName)] }
      | none =>
        if (GetScheduleID.loop m.oc
            (w.schedules graphqlEndpoint m.oc.AccessToken
              (GetScheduleID.variables m.oc)).2.Schedules).ScheduleID = 0 then
          Outcome.exited 1
            { oc := GetScheduleID.loop m.oc
                (w.schedules graphqlEndpoint m.oc.AccessToken
                  (GetScheduleID.variables m.oc)).2.Schedules
              out := m.out ++
                [Event.graphql graphqlEndpoint m.oc.AccessToken (GetScheduleID.variables m.oc),
                 Event.fatal ("Schedule of name: " ++
                  (GetScheduleID.loop m.oc
                    (w.schedules graphqlEndpoint m.oc.AccessToken
                      (GetScheduleID.variables m.oc)).2.Schedules).ScheduleName ++
                  " doesn't exist")] }
        else
          Outcome.returned
            { oc := GetScheduleID.loop m.oc
                (w.schedules graphqlEndpoint m.oc.AccessToken
                  (GetScheduleID.variables m.oc)).2.Schedules
              out := m.out ++
                [Event.graphql graphqlEndpoint m.oc.AccessToken
                  (GetScheduleID.variables m.oc)] } := by
  unfold GetScheduleID
  cases h : (w.schedules graphqlEndpoint m.oc.AccessToken (GetScheduleID.variables m.oc)).1
  · simp only [executeGraphQLQuery, Outcome.andThen, Fatalf, h]
    split <;> simp
  · simp [executeGraphQLQuery, Outcome.andThen, Fatalf, h]

theorem GetOnCallPeople_eq (w : World) (m : Machine) :
    GetOnCallPeople w m =
      match (w.oncall (GetOnCallPeople.request m.oc)).err with
      | some err =>
        Outcome.exited 1
          { oc := m.oc
            out := m.out ++ [Event.http (GetOnCallPeople.request m.oc),
              Event.fatal (err ++ " : " ++
                (w.oncall (GetOnCallPeople.request m.oc)).fail.Meta.ErrorMessage)] }
      | none =>
        Outcome.returned
          { oc := GetOnCallPeople.loop m.oc (w.oncall (GetOnCallPeople.request m.oc)).resp.Data
            out := m.out ++ [Event.http (GetOnCallPeople.request m.oc)] } := by
  unfold GetOnCallPeople
  cases h : (w.oncall (GetOnCallPeople.request m.oc)).err <;>
    simp [Do, Outcome.andThen, Fatalf, h]

theorem NotifySlack_eq (w : World) (m : Machine) :
    NotifySlack w m =
      match (w.slack (NotifySlack.request m.oc)).err with
      | some err =>
        Outcome.exited 1
          { oc := m.oc
            out := m.out ++ [Event.http (NotifySlack.request m.oc),
              Event.fatal (err ++ " : " ++ (w.slack (NotifySlack.request m.oc)).fail)] }
      | none =>
        Outcome.returned
          { oc := m.oc, out := m.out ++ [Event.http (NotifySlack.request m.oc)] } := by
  unfold NotifySlack
  cases h : (w.slack (NotifySlack.request m.oc)).err <;>
    simp [Do, Fatalf, h]

/-! ## What each stage leaves behind -/

theorem GetTeamID_loop_frame (oc : OnCall) (teams : List TeamsDetails) :
    GetTeamID.loop oc teams = { oc with TeamID := (GetTeamID.loop oc teams).TeamID } := by
  rw [GetTeamID_loop_eq]
  split <;> rfl

theorem GetScheduleID_loop_frame (oc : OnCall) (schedules : List ScheduleEntry) :
    GetScheduleID.loop oc schedules =
      { oc with ScheduleID := (GetScheduleID.loop oc schedules).ScheduleID } := by
  rw [GetScheduleID_loop_eq]
  split <;> rfl

theorem GetAccessToken_returned {w : World} {m m' : Machine}
    (h : GetAccessToken w m = Outcome.returned m') :
    m'.oc = { m.oc with AccessToken := m'.oc.AccessToken } ∧
    m'.out = m.out ++ [Event.http (GetAccessToken.request m.oc)] := by
  rw [GetAccessToken_eq] at h
  split at h
  · simp at h
  · simp only [Outcome.returned.injEq] at h
    subst h
    exact ⟨rfl, rfl⟩

theorem GetAccessToken_exited {w : World} {m m' : Machine} {status : Nat}
    (h : GetAccessToken w m = Outcome.exited status m') :
    status = 1 ∧ m'.oc = m.oc ∧
    ∃ msg, m'.out = m.out ++ [Event.http (GetAccessToken.request m.oc), Event.fatal msg] := by
  rw [GetAccessToken_eq] at h
  split at h
  · simp only [Outcome.exited.injEq] at h
    obtain ⟨h1, h2⟩ := h
    subst h1 h2
    exact ⟨rfl, rfl, _, rfl⟩
  · simp at h

theorem GetTeamID_returned {w : World} {m m' : Machine}
    (h : GetTeamID w m = Outcome.returned m') :
    m'.oc = { m.oc with TeamID := m'.oc.TeamID } ∧
    m'.out = m.out ++ [Event.http (GetTeamID.request m.oc)] := by
  rw [GetTeamID_eq] at h
  split at h
  · simp at h
  · split at h
    · simp at h
    · simp only [Outcome.returned.injEq] at h
      subst h
      exact ⟨GetTeamID_loop_frame _ _, rfl⟩

theorem GetTeamID_exited {w : World} {m m' : Machine} {status : Nat}
    (h0 : m.oc.TeamID = "") (h : GetTeamID w m = Outcome.exited status m') :
    status = 1 ∧ m'.oc = m.oc ∧
    ∃ msg, m'.out = m.out ++ [Event.http (GetTeamID.request m.oc), Event.fatal msg] := by
  rw [GetTeamID_eq] at h
  split at h
  · simp only [Outcome.exited.injEq] at h
    obtain ⟨h1, h2⟩ := h
    subst h1 h2
    exact ⟨rfl, rfl, _, rfl⟩
  · split at h
    · rename_i hempty
      simp only [Outcome.exited.injEq] at h
      obtain ⟨h1, h2⟩ := h
      subst h1 h2
      refine ⟨rfl, ?_, _, rfl⟩
      show GetTeamID.loop m.oc _ = m.oc
      rw [GetTeamID_loop_frame, hempty, ← h0]
    · simp at h

theorem GetScheduleID_returned {w : World} {m m' : Machine}
    (h : GetScheduleID w m = Outcome.returned m') :
    m'.oc = { m.oc with ScheduleID := m'.oc.ScheduleID } ∧
    m'.out = m.out ++
      [Event.graphql graphqlEndpoint m.oc.AccessToken (GetScheduleID.variables m.oc)] := by
  rw [GetScheduleID_eq] at h
  split at h
  · simp at h
  · split at h
    · simp at h
    · simp only [Outcome.returned.injEq] at h
      subst h
      exact ⟨GetScheduleID_loop_frame _ _, rfl⟩

theorem GetScheduleID_exited {w : World} {m m' : Machine} {status : Nat}
    (h0 : m.oc.ScheduleID = 0) (h : GetScheduleID w m = Outcome.exited status m') :
    status = 1 ∧ m'.oc = m.oc ∧
    ∃ msg, m'.out = m.out ++
      [Event.graphql graphqlEndpoint m.oc.AccessToken (GetScheduleID.variables m.oc),
       Event.fatal msg] := by
  rw [GetScheduleID_eq] at h
  split at h
  · simp only [Outcome.exited.injEq] at h
    obtain ⟨h1, h2⟩ := h
    subst h1 h2
    exact ⟨rfl, rfl, _, rfl⟩
  · split at h
    · rename_i hzero
      simp only [Outcome.exited.injEq] at h
      obtain ⟨h1, h2⟩ := h
      subst h1 h2
      refine ⟨rfl, ?_, _, rfl⟩
      show GetScheduleID.loop m.oc _ = m.oc
      rw [GetScheduleID_loop_frame, hzero, ← h0]
    · simp at h

theorem GetOnCallPeople_returned {w : World} {m m' : Machine}
    (h : GetOnCallPeople w m = Outcome.returned m') :
    m'.oc = { m.oc with OnCallResponders := m'.oc.OnCallResponders } ∧
    m'.oc.OnCallResponders.elems =
      m.oc.OnCallResponders.elems ++
        (w.oncall (GetOnCallPeople.request m.oc)).resp.Data.flatMap
          (fun d => d.Oncall.map displayName) ∧
    m'.out = m.out ++ [Event.http (GetOnCallPeople.request m.oc)] := by
  rw [GetOnCallPeople_eq] at h
  split at h
  · simp at h
  · simp only [Outcome.returned.injEq] at h
    subst h
    exact ⟨GetOnCallPeople_loop_frame _ _, GetOnCallPeople_loop_elems _ _, rfl⟩

theorem GetOnCallPeople_exited {w : World} {m m' : Machine} {status : Nat}
    (h : GetOnCallPeople w m = Outcome.exited status m') :
    status = 1 ∧ m'.oc = m.oc ∧
    ∃ msg, m'.out = m.out ++ [Event.http (GetOnCallPeople.request m.oc), Event.fatal msg] := by
  rw [GetOnCallPeople_eq] at h
  split at h
  · simp only [Outcome.exited.injEq] at h
    obtain ⟨h1, h2⟩ := h
    subst h1 h2
    exact ⟨rfl, rfl, _, rfl⟩
  · simp at h

theorem NotifySlack_returned {w : World} {m m' : Machine}
    (h : NotifySlack w m = Outcome.returned m') :
    m'.oc = m.oc ∧ m'.out = m.out ++ [Event.http (NotifySlack.request m.oc)] := by
  rw [NotifySlack_eq] at h
  split at h
  · simp at h
  · simp only [Outcome.returned.injEq] at h
    subst h
    exact ⟨rfl, rfl⟩

theorem NotifySlack_exited {w : World} {m m' : Machine} {status : Nat}
    (h : NotifySlack w m = Outcome.exited status m') :
    status = 1 ∧ m'.oc = m.oc ∧
    ∃ msg, m'.out = m.out ++ [Event.http (NotifySlack.request m.oc), Event.fatal msg] := by
  rw [NotifySlack_eq] at h
  split at h
  · simp only [Outcome.exited.injEq] at h
    obtain ⟨h1, h2⟩ := h
    subst h1 h2
    exact ⟨rfl, rfl, _, rfl⟩
  · simp at h

theorem andThen_returned {o : Outcome} {k : Machine → Outcome} {m : Machine}
    (h : o.andThen k = Outcome.returned m) :
    ∃ m1, o = Outcome.returned m1 ∧ k m1 = Outcome.returned m := by
  cases o with
  | returned m1 => exact ⟨m1, rfl, h⟩
  | exited status m1 => simp [Outcome.andThen] at h

/-! ## Team Resolver -/

/-- C1, as stated, fails: in `emptyTeamIDWorld` the teams request succeeds and
exactly one entry is named `B`, yet `GetTeamID` on a fresh session does not
resolve the team: the process exits with "Team of name: B doesn't exist". -/
theorem GetTeamID_unique_match_with_empty_id_exits :
    (emptyTeamIDWorld.teams (GetTeamID.request (NewOnCall sampleParams))).err = none ∧
    (emptyTeamIDWorld.teams (GetTeamID.request (NewOnCall sampleParams))).resp.Data.countP
      (fun x => decide (x.Name = sampleParams.TeamName)) = 1 ∧
    GetTeamID emptyTeamIDWorld { oc := NewOnCall sampleParams, out := [] } =
      Outcome.exited 1
        { oc := NewOnCall sampleParams
          out := [Event.http (GetTeamID.request (NewOnCall sampleParams)),
                  Event.fatal "Team of name: B doesn't exist"] } := by
  decide

/-- C1 (amended): on a session freshly built by `NewOnCall`, after a successful
teams request: if exactly one entry of the returned list has the configured
team name and the ID of that entry is not the empty string, `GetTeamID` returns
and `TeamID` is that ID; if no entry has the configured name, the process exits
with status 1 and the fatal message "Team of name: <name> doesn't exist". -/
theorem GetTeamID_unique_or_missing (w : World) (params : Params) (out : List Event)
    (hok : (w.teams (GetTeamID.request (NewOnCall params))).err = none) :
    (∀ t : TeamsDetails,
        t ∈ (w.teams (GetTeamID.request (NewOnCall params))).resp.Data →
        t.Name = params.TeamName →
        (w.teams (GetTeamID.request (NewOnCall params))).resp.Data.countP
          (fun x => decide (x.Name = params.TeamName)) = 1 →
        t.ID ≠ "" →
        GetTeamID w { oc := NewOnCall params, out := out } =
          Outcome.returned
            { oc := { NewOnCall params with TeamID := t.ID }
              out := out ++ [Event.http (GetTeamID.request (NewOnCall params))] }) ∧
    ((∀ t ∈ (w.teams (GetTeamID.request (NewOnCall params))).resp.Data,
        t.Name ≠ params.TeamName) →
        GetTeamID w { oc := NewOnCall params, out := out } =
          Outcome.exited 1
            { oc := NewOnCall params
              out := out ++ [Event.http (GetTeamID.request (NewOnCall params)),
                Event.fatal ("Team of name: " ++ params.TeamName ++ " doesn't exist")] }) := by
  constructor
  · intro t hmem hname hcount hid
    have hfirst := firstTeam_of_unique params.TeamName _ t hmem hname hcount
    rw [GetTeamID_eq]
    simp only [hok, GetTeamID_loop_eq]
    have hn : (NewOnCall params).TeamName = params.TeamName := rfl
    simp only [hn, hfirst, hid, if_false]
  · intro hnone
    have hfirst := (firstTeam_eq_none params.TeamName _).mpr hnone
    rw [GetTeamID_eq]
    simp only [hok, GetTeamID_loop_eq]
    have hn : (NewOnCall params).TeamName = params.TeamName := rfl
    simp only [hn, hfirst]
    simp [NewOnCall]

/-- The scenario of C1: teams `t1/A`, `t2/B` and configured name `B` resolve to
`t2`; with the configured name `C`, which no entry has, the process exits. -/
theorem GetTeamID_unique_or_missing_witness :
    (sampleWorld.teams (GetTeamID.request (NewOnCall sampleParams))).err = none ∧
    GetTeamID sampleWorld { oc := NewOnCall sampleParams, out := [] } =
      Outcome.returned
        { oc := { NewOnCall sampleParams with TeamID := "t2" }
          out := [Event.http (GetTeamID.request (NewOnCall sampleParams))] } ∧
    GetTeamID sampleWorld { oc := NewOnCall strayParams, out := [] } =
      Outcome.exited 1
        { oc := NewOnCall strayParams
          out := [Event.http (GetTeamID.request (NewOnCall strayParams)),
                  Event.fatal ("Team of name: " ++ "C" ++ " doesn't exist")] } :=
  ⟨by decide,
   (GetTeamID_unique_or_missing sampleWorld sampleParams [] (by decide)).1
     { ID := "t2", Name := "B" } (by decide) (by decide) (by decide) (by decide),
   (GetTeamID_unique_or_missing sampleWorld strayParams [] (by decide)).2 (by decide)⟩

/-! ## Schedule Resolver -/

/-- C2, as stated, fails: in `zeroScheduleIDWorld` the query succeeds and the
first entry named `primary` has ID 0, yet `GetScheduleID` on a fresh session
does not succeed with that ID: the process exits with "Schedule of name:
primary doesn't exist". -/
theorem GetScheduleID_first_match_with_zero_id_exits :
    (zeroScheduleIDWorld.schedules graphqlEndpoint (NewOnCall sampleParams).AccessToken
      (GetScheduleID.variables (NewOnCall sampleParams))).1 = none ∧
    firstSchedule sampleParams.ScheduleName
      (zeroScheduleIDWorld.schedules graphqlEndpoint (NewOnCall sampleParams).AccessToken
        (GetScheduleID.variables (NewOnCall sampleParams))).2.Schedules =
      some { Name := "primary", ID := 0 } ∧
    GetScheduleID zeroScheduleIDWorld { oc := NewOnCall sampleParams, out := [] } =
      Outcome.exited 1
        { oc := NewOnCall sampleParams
          out := [Event.graphql graphqlEndpoint (NewOnCall sampleParams).AccessToken
                    (GetScheduleID.variables (NewOnCall sampleParams)),
                  Event.fatal "Schedule of name: primary doesn't exist"] } := by
  decide

/-- C2 (amended): on a session freshly built by `NewOnCall`, after a successful
query: if the first entry (in list order) with the configured schedule name has
an ID other than 0, `GetScheduleID` returns and `ScheduleID` is that ID; if the
returned list is empty or has no entry with that name, the process exits with
status 1 and the fatal message "Schedule of name: <name> doesn't exist". -/
theorem GetScheduleID_first_or_missing (w : World) (params : Params) (out : List Event)
    (hok : (w.schedules graphqlEndpoint (NewOnCall params).AccessToken
      (GetScheduleID.variables (NewOnCall params))).1 = none) :
    (∀ s : ScheduleEntry,
        firstSchedule params.ScheduleName
          (w.schedules graphqlEndpoint (NewOnCall params).AccessToken
            (GetScheduleID.variables (NewOnCall params))).2.Schedules = some s →
        s.ID ≠ 0 →
        GetScheduleID w { oc := NewOnCall params, out := out } =
          Outcome.returned
            { oc := { NewOnCall params with ScheduleID := s.ID }
              out := out ++ [Event.graphql graphqlEndpoint (NewOnCall params).AccessToken
                (GetScheduleID.variables (NewOnCall params))] }) ∧
    (((w.schedules graphqlEndpoint (NewOnCall params).AccessToken
          (GetScheduleID.variables (NewOnCall params))).2.Schedules = [] ∨
      ∀ s ∈ (w.schedules graphqlEndpoint (NewOnCall params).AccessToken
          (GetScheduleID.variables (NewOnCall params))).2.Schedules,
        s.Name ≠ params.ScheduleName) →
        GetScheduleID w { oc := NewOnCall params, out := out } =
          Outcome.exited 1
            { oc := NewOnCall params
              out := out ++ [Event.graphql graphqlEndpoint (NewOnCall params).AccessToken
                  (GetScheduleID.variables (NewOnCall params)),
                Event.fatal
                  ("Schedule of name: " ++ params.ScheduleName ++ " doesn't exist")] }) := by
  have hn : (NewOnCall params).ScheduleName = params.ScheduleName := rfl
  constructor
  · intro s hfirst hid
    rw [GetScheduleID_eq]
    simp only [hok, GetScheduleID_loop_eq]
    simp only [hn, hfirst, hid, if_false]
  · intro hnone
    have hall : ∀ s ∈ (w.schedules graphqlEndpoint (NewOnCall params).AccessToken
        (GetScheduleID.variables (NewOnCall params))).2.Schedules,
        s.Name ≠ params.ScheduleName := by
      rcases hnone with h | h
      · rw [h]; simp
      · exact h
    have hfirst := (firstSchedule_eq_none params.ScheduleName _).mpr hall
    rw [GetScheduleID_eq]
    simp only [hok, GetScheduleID_loop_eq]
    simp only [hn, hfirst]
    simp [NewOnCall]

/-- A run of C2: schedule `primary` with ID 1936 resolves to 1936; the
configured name `secondary`, which no entry has, makes the process exit. -/
theorem GetScheduleID_first_or_missing_witness :
    (sampleWorld.schedules graphqlEndpoint (NewOnCall sampleParams).AccessToken
      (GetScheduleID.variables (NewOnCall sampleParams))).1 = none ∧
    GetScheduleID sampleWorld { oc := NewOnCall sampleParams, out := [] } =
      Outcome.returned
        { oc := { NewOnCall sampleParams with ScheduleID := 1936 }
          out := [Event.graphql graphqlEndpoint (NewOnCall sampleParams).AccessToken
                    (GetScheduleID.variables (NewOnCall sampleParams))] } ∧
    GetScheduleID sampleWorld { oc := NewOnCall strayParams, out := [] } =
      Outcome.exited 1
        { oc := NewOnCall strayParams
          out := [Event.graphql graphqlEndpoint (NewOnCall strayParams).AccessToken
                    (GetScheduleID.variables (NewOnCall strayParams)),
                  Event.fatal ("Schedule of name: " ++ "secondary" ++ " doesn't exist")] } :=
  ⟨by decide,
   (GetScheduleID_first_or_missing sampleWorld sampleParams [] (by decide)).1
     { Name := "primary", ID := 1936 } (by decide) (by decide),
   (GetScheduleID_first_or_missing sampleWorld strayParams [] (by decide)).2
     (Or.inr (by decide))⟩

/-- C6 at the failing input: in `queryErrorWorld` the query returns the error
`boom`; `GetScheduleID` emits the message naming the schedule and the process
exits there.  The message carrying the error is never emitted. -/
theorem GetScheduleID_query_error_emits_one_message :
    (queryErrorWorld.schedules graphqlEndpoint (NewOnCall sampleParams).AccessToken
      (GetScheduleID.variables (NewOnCall sampleParams))).1 = some "boom" ∧
    GetScheduleID queryErrorWorld { oc := NewOnCall sampleParams, out := [] } =
      Outcome.exited 1
        { oc := NewOnCall sampleParams
          out := [Event.graphql graphqlEndpoint (NewOnCall sampleParams).AccessToken
                    (GetScheduleID.variables (NewOnCall sampleParams)),
                  Event.fatal
                    "There is an error fetching the schedule id for the schedule name:primary"] } ∧
    Event.fatal "Error:boom" ∉
      (GetScheduleID queryErrorWorld { oc := NewOnCall sampleParams, out := [] }).machine.out := by
  decide

/-! ## On-Call Fetcher -/

/-- C3: on a session whose responder list is empty, after a successful roster
request, `GetOnCallPeople` returns and `OnCallResponders` holds, for the records
in response order, the people of each record in order as
`FirstName ++ " " ++ LastName`; its length is the total number of on-call
people over all records. -/
theorem GetOnCallPeople_flattens_roster (w : World) (m : Machine)
    (hok : (w.oncall (GetOnCallPeople.request m.oc)).err = none)
    (hempty : m.oc.OnCallResponders.elems = []) :
    ∃ m', GetOnCallPeople w m = Outcome.returned m' ∧
      m'.oc.OnCallResponders.elems =
        (w.oncall (GetOnCallPeople.request m.oc)).resp.Data.flatMap
          (fun d => d.Oncall.map (fun p => p.FirstName ++ " " ++ p.LastName)) ∧
      m'.oc.OnCallResponders.len =
        ((w.oncall (GetOnCallPeople.request m.oc)).resp.Data.map
          (fun d => d.Oncall.length)).sum := by
  have hret : GetOnCallPeople w m = Outcome.returned
      { oc := GetOnCallPeople.loop m.oc (w.oncall (GetOnCallPeople.request m.oc)).resp.Data
        out := m.out ++ [Event.http (GetOnCallPeople.request m.oc)] } := by
    rw [GetOnCallPeople_eq]
    simp only [hok]
  obtain ⟨_, helems, _⟩ := GetOnCallPeople_returned hret
  rw [hempty, List.nil_append] at helems
  refine ⟨_, hret, helems, ?_⟩
  simp only [Slice.len, helems]
  generalize (w.oncall (GetOnCallPeople.request m.oc)).resp.Data = records
  induction records with
  | nil => rfl
  | cons d rest ih => simp [List.flatMap_cons, ih]

/-- The scenario of C3: two records, the first with Jane Doe, the second with
nobody, give exactly `["Jane Doe"]`. -/
theorem GetOnCallPeople_flattens_roster_witness :
    (sampleWorld.oncall (GetOnCallPeople.request (NewOnCall sampleParams))).err = none ∧
    (NewOnCall sampleParams).OnCallResponders.elems = [] ∧
    (sampleWorld.oncall (GetOnCallPeople.request (NewOnCall sampleParams))).resp.Data.flatMap
      (fun d => d.Oncall.map (fun p => p.FirstName ++ " " ++ p.LastName)) = ["Jane Doe"] ∧
    ∃ m', GetOnCallPeople sampleWorld { oc := NewOnCall sampleParams, out := [] } =
        Outcome.returned m' ∧
      m'.oc.OnCallResponders.elems =
        (sampleWorld.oncall (GetOnCallPeople.request (NewOnCall sampleParams))).resp.Data.flatMap
          (fun d => d.Oncall.map (fun p => p.FirstName ++ " " ++ p.LastName)) ∧
      m'.oc.OnCallResponders.len =
        ((sampleWorld.oncall (GetOnCallPeople.request (NewOnCall sampleParams))).resp.Data.map
          (fun d => d.Oncall.length)).sum :=
  ⟨by decide, by decide, by decide,
   GetOnCallPeople_flattens_roster sampleWorld { oc := NewOnCall sampleParams, out := [] }
     (by decide) (by decide)⟩

theorem GetOnCallPeople_sends (w : World) (m : Machine) :
    ∃ rest, (GetOnCallPeople w m).machine.out =
      m.out ++ Event.http (GetOnCallPeople.request m.oc) :: rest := by
  rw [GetOnCallPeople_eq]
  split
  · exact ⟨_, rfl⟩
  · exact ⟨[], rfl⟩

theorem NotifySlack_sends (w : World) (m : Machine) :
    ∃ rest, (NotifySlack w m).machine.out =
      m.out ++ Event.http (NotifySlack.request m.oc) :: rest := by
  rw [NotifySlack_eq]
  split
  · exact ⟨_, rfl⟩
  · exact ⟨[], rfl⟩

/-- C8: for every team ID and every integer schedule ID, the query parameters
`GetOnCallPeople` builds have exactly the two keys `teamId` and `scheduleID`;
`teamId` has the single value `TeamID`, `scheduleID` the single value
`Itoa ScheduleID`, and reading that numeral as a decimal integer gives back
`ScheduleID`.  These are the parameters of the request the method sends. -/
theorem GetOnCallPeople_query_parameters (w : World) (m : Machine) :
    (GetOnCallPeople.queryParams m.oc).keys = ["teamId", "scheduleID"] ∧
    (∀ key, key ∈ (GetOnCallPeople.queryParams m.oc).keys ↔
      key = "teamId" ∨ key = "scheduleID") ∧
    (GetOnCallPeople.queryParams m.oc).keys.Nodup ∧
    (GetOnCallPeople.queryParams m.oc).keys.length = 2 ∧
    (GetOnCallPeople.queryParams m.oc).lookup "teamId" = some [m.oc.TeamID] ∧
    (GetOnCallPeople.queryParams m.oc).lookup "scheduleID" = some [Itoa m.oc.ScheduleID] ∧
    parseDecimal (Itoa m.oc.ScheduleID) = some m.oc.ScheduleID ∧
    (GetOnCallPeople.request m.oc).Query = GetOnCallPeople.queryParams m.oc ∧
    ∃ rest, (GetOnCallPeople w m).machine.out =
      m.out ++ Event.http (GetOnCallPeople.request m.oc) :: rest := by
  have hq : GetOnCallPeople.queryParams m.oc =
      [("teamId", [m.oc.TeamID]), ("scheduleID", [Itoa m.oc.ScheduleID])] := by
    have hne : ("teamId" == "scheduleID") = false := by decide
    simp [GetOnCallPeople.queryParams, Values.Add, hne]
  have h1 : ("teamId" == "scheduleID") = false := by decide
  have h2 : ("teamId" == "teamId") = true := by decide
  have h3 : ("scheduleID" == "scheduleID") = true := by decide
  have h4 : ¬ ("teamId" = "scheduleID") := by decide
  refine ⟨?_, ?_, ?_, ?_, ?_, ?_, parseDecimal_Itoa _, rfl, GetOnCallPeople_sends w m⟩
  · rw [hq]; rfl
  · intro key; rw [hq]; simp [Values.keys]
  · rw [hq]; simp [Values.keys, h4]
  · rw [hq]; rfl
  · rw [hq]; simp [Values.lookup, List.find?, h2]
  · rw [hq]; simp [Values.lookup, List.find?, h1, h3]

/-! ## Notifier -/

/-- C4: for every schedule name and every list of responder names, the request
`NotifySlack` sends is a POST whose body has exactly one attachment; its
`Fields` has one entry per responder, in order, with `Title` the responder name,
`Value` empty and `Short` false; its `Fallback` is "On-Call Update for
schedule: " followed by the schedule name, its `Pretext` "People on-call for
schedule: " followed by the schedule name, its `Color` "#00FF00". -/
theorem NotifySlack_payload (w : World) (m : Machine) :
    (∃ rest, (NotifySlack w m).machine.out =
      m.out ++ Event.http (NotifySlack.request m.oc) :: rest) ∧
    (NotifySlack.request m.oc).Method = "POST" ∧
    (NotifySlack.request m.oc).Body = some (NotifySlack.body m.oc) ∧
    (NotifySlack.body m.oc).Attachments = Slice.mk
      [{ Fallback := "On-Call Update for schedule: " ++ m.oc.ScheduleName
         Pretext := "People on-call for schedule: " ++ m.oc.ScheduleName
         Color := "#00FF00"
         Fields := Slice.mk (m.oc.OnCallResponders.elems.map
           (fun user => { Title := user, Value := "", Short := false })) }] ∧
    (NotifySlack.body m.oc).Attachments.len = 1 ∧
    (∀ a ∈ (NotifySlack.body m.oc).Attachments.elems,
      a.Fields.len = m.oc.OnCallResponders.len ∧
      ∀ i : Nat, i < m.oc.OnCallResponders.len →
        a.Fields.elems[i]? =
          (m.oc.OnCallResponders.elems[i]?).map
            (fun user => { Title := user, Value := "", Short := false })) := by
  have hbody : (NotifySlack.body m.oc).Attachments = Slice.mk
      [{ Fallback := "On-Call Update for schedule: " ++ m.oc.ScheduleName
         Pretext := "People on-call for schedule: " ++ m.oc.ScheduleName
         Color := "#00FF00"
         Fields := Slice.mk (m.oc.OnCallResponders.elems.map
           (fun user => { Title := user, Value := "", Short := false })) }] := by
    simp only [NotifySlack.body, NotifySlack_fields_eq]
  refine ⟨NotifySlack_sends w m, rfl, rfl, hbody, ?_, ?_⟩
  · rw [hbody]; rfl
  · intro a ha
    rw [hbody] at ha
    simp only [Slice.elems, List.mem_singleton] at ha
    subst ha
    refine ⟨by simp [Slice.len, Slice.elems], ?_⟩
    intro i _
    simp [Slice.elems]

/-- A run of C4: with schedule `primary` and the responders Jane Doe and John
Roe, the body has one attachment with the two names as field titles, in order. -/
theorem NotifySlack_payload_witness :
    (NotifySlack.body
      { NewOnCall sampleParams with
          OnCallResponders := Slice.mk ["Jane Doe", "John Roe"] }).Attachments =
      Slice.mk
        [{ Fallback := "On-Call Update for schedule: primary"
           Pretext := "People on-call for schedule: primary"
           Color := "#00FF00"
           Fields := Slice.mk
             [{ Title := "Jane Doe", Value := "", Short := false },
              { Title := "John Roe", Value := "", Short := false }] }] ∧
    ∀ a ∈ (NotifySlack.body
        { NewOnCall sampleParams with
            OnCallResponders := Slice.mk ["Jane Doe", "John Roe"] }).Attachments.elems,
      a.Fields.elems[1]? = some { Title := "John Roe", Value := "", Short := false } :=
  have h := NotifySlack_payload sampleWorld
    { oc := { NewOnCall sampleParams with
                OnCallResponders := Slice.mk ["Jane Doe", "John Roe"] }
      out := [] }
  ⟨h.2.2.2.1, fun a ha => (h.2.2.2.2.2 a ha).2 1 (by decide)⟩

theorem schedule_texts_ne_empty (name : String) :
    "On-Call Update for schedule: " ++ name ≠ "" ∧
    "People on-call for schedule: " ++ name ≠ "" := by
  constructor <;>
  · intro h
    have hlen := congrArg String.length h
    simp only [String.length_append] at hlen
    have h0 : "".length = 0 := rfl
    have h1 : "On-Call Update for schedule: ".length = 29 := by decide
    have h2 : "People on-call for schedule: ".length = 29 := by decide
    omega

theorem NotifySlack_attachment_keys (fallback pretext : String)
    (fields : Slice SlackWebhookAttachmentFields)
    (hf : fallback ≠ "") (hp : pretext ≠ "") :
    (SlackWebhookAttachment.encode
      { Fallback := fallback, Pretext := pretext, Color := "#00FF00", Fields := fields }).keys =
      if fields.len = 0 then ["fallback", "pretext", "color"]
      else ["fallback", "pretext", "color", "fields"] := by
  have hc : ¬ ("#00FF00" = "") := by decide
  by_cases h : fields.len = 0 <;>
    simp [SlackWebhookAttachment.encode, Json.keys, omitemptyString, omitemptySlice, hf, hp,
      hc, h]

/-- C7, as stated, fails: on a fresh session, which has no responders, the body
`NotifySlack` builds has one attachment whose `Fields` has length 0, and the
JSON payload of the POST is one attachment object with the keys `fallback`,
`pretext` and `color` only: the `fields` key is absent from what is sent. -/
theorem NotifySlack_zero_responders_payload_lacks_fields_key :
    (NewOnCall sampleParams).OnCallResponders.elems = [] ∧
    (NotifySlack.request (NewOnCall sampleParams)).payload =
      some (Json.obj
        [("attachments", Json.arr
          [Json.obj
            [("fallback", Json.str "On-Call Update for schedule: primary"),
             ("pretext", Json.str "People on-call for schedule: primary"),
             ("color", Json.str "#00FF00")]])]) ∧
    (∀ a ∈ (NotifySlack.body (NewOnCall sampleParams)).Attachments.elems,
      a.Fields.len = 0 ∧ "fields" ∉ a.encode.keys) := by
  refine ⟨by decide, rfl, ?_⟩
  intro a ha
  have hbody : (NotifySlack.body (NewOnCall sampleParams)).Attachments.elems =
      [{ Fallback := "On-Call Update for schedule: primary"
         Pretext := "People on-call for schedule: primary"
         Color := "#00FF00"
         Fields := Slice.mk [] }] := by decide
  rw [hbody] at ha
  simp only [List.mem_singleton] at ha
  subst ha
  exact ⟨rfl, by decide⟩

/-- C7 (amended): for a session whose responder list is empty, the body
`NotifySlack` builds has exactly one attachment whose `Fields` is a non-nil
slice of length 0; as the field is tagged `omitempty`, the JSON object of that
attachment has the keys `fallback`, `pretext` and `color` and no `fields` key,
whereas with one responder or more it has the `fields` key as well.  For every
session, whatever the length of the responder list, the method sends the POST
with that body to the webhook URL. -/
theorem NotifySlack_zero_responders_post (w : World) (m : Machine) :
    (m.oc.OnCallResponders.elems = [] →
      (NotifySlack.body m.oc).Attachments.len = 1 ∧
      ∀ a ∈ (NotifySlack.body m.oc).Attachments.elems,
        a.Fields = Slice.mk [] ∧ a.Fields ≠ Slice.nil ∧ a.Fields.len = 0 ∧
        a.encode.keys = ["fallback", "pretext", "color"] ∧
        "fields" ∉ a.encode.keys) ∧
    (m.oc.OnCallResponders.elems ≠ [] →
      ∀ a ∈ (NotifySlack.body m.oc).Attachments.elems,
        a.encode.keys = ["fallback", "pretext", "color", "fields"]) ∧
    (NotifySlack.request m.oc).Method = "POST" ∧
    (NotifySlack.request m.oc).URL = m.oc.SlackWebhookURL ∧
    (NotifySlack.request m.oc).Body = some (NotifySlack.body m.oc) ∧
    (NotifySlack.request m.oc).payload = some (NotifySlack.body m.oc).encode ∧
    (Event.http (NotifySlack.request m.oc)).isPost = true ∧
    ∃ rest, (NotifySlack w m).machine.out =
      m.out ++ Event.http (NotifySlack.request m.oc) :: rest := by
  have hbody : (NotifySlack.body m.oc).Attachments = Slice.mk
      [{ Fallback := "On-Call Update for schedule: " ++ m.oc.ScheduleName
         Pretext := "People on-call for schedule: " ++ m.oc.ScheduleName
         Color := "#00FF00"
         Fields := Slice.mk (m.oc.OnCallResponders.elems.map
           (fun user => { Title := user, Value := "", Short := false })) }] := by
    simp only [NotifySlack.body, NotifySlack_fields_eq]
  have htexts := schedule_texts_ne_empty m.oc.ScheduleName
  refine ⟨?_, ?_, rfl, rfl, rfl, rfl, ?_, NotifySlack_sends w m⟩
  · intro hzero
    rw [hzero, List.map_nil] at hbody
    refine ⟨by rw [hbody]; rfl, ?_⟩
    intro a ha
    rw [hbody] at ha
    simp only [Slice.elems, List.mem_singleton] at ha
    subst ha
    have hkeys := NotifySlack_attachment_keys _ _ (Slice.mk []) htexts.1 htexts.2
    have hlen : (Slice.mk ([] : List SlackWebhookAttachmentFields)).len = 0 := rfl
    rw [if_pos hlen] at hkeys
    refine ⟨rfl, by simp, rfl, hkeys, ?_⟩
    rw [hkeys]
    decide
  · intro hsome a ha
    rw [hbody] at ha
    simp only [Slice.elems, List.mem_singleton] at ha
    subst ha
    have hkeys := NotifySlack_attachment_keys _ _
      (Slice.mk (m.oc.OnCallResponders.elems.map
        (fun user => ({ Title := user, Value := "", Short := false } :
          SlackWebhookAttachmentFields)))) htexts.1 htexts.2
    have hlen : ¬ (Slice.mk (m.oc.OnCallResponders.elems.map
        (fun user => ({ Title := user, Value := "", Short := false } :
          SlackWebhookAttachmentFields)))).len = 0 := by
      show ¬ (m.oc.OnCallResponders.elems.map
        (fun user => ({ Title := user, Value := "", Short := false } :
          SlackWebhookAttachmentFields))).length = 0
      rw [List.length_map]
      exact fun h => hsome (List.length_eq_zero.mp h)
    rw [if_neg hlen] at hkeys
    exact hkeys
  · simp [Event.isPost, NotifySlack.request]

/-- Two runs of C7 (amended): a fresh session has no responders, the attachment
is sent without a `fields` key, and the POST is sent; a session listing Jane
Doe is sent with the `fields` key. -/
theorem NotifySlack_zero_responders_post_witness :
    (NewOnCall sampleParams).OnCallResponders.elems = [] ∧
    ((NotifySlack.body (NewOnCall sampleParams)).Attachments.len = 1 ∧
      ∀ a ∈ (NotifySlack.body (NewOnCall sampleParams)).Attachments.elems,
        a.Fields = Slice.mk [] ∧ a.Fields ≠ Slice.nil ∧ a.Fields.len = 0 ∧
        a.encode.keys = ["fallback", "pretext", "color"] ∧
        "fields" ∉ a.encode.keys) ∧
    (∀ a ∈ (NotifySlack.body
        { NewOnCall sampleParams with
            OnCallResponders := Slice.mk ["Jane Doe"] }).Attachments.elems,
      a.encode.keys = ["fallback", "pretext", "color", "fields"]) ∧
    NotifySlack sampleWorld { oc := NewOnCall sampleParams, out := [] } =
      Outcome.returned
        { oc := NewOnCall sampleParams
          out := [Event.http (NotifySlack.request (NewOnCall sampleParams))] } :=
  ⟨by decide,
   (NotifySlack_zero_responders_post sampleWorld
     { oc := NewOnCall sampleParams, out := [] }).1 (by decide),
   (NotifySlack_zero_responders_post sampleWorld
     { oc := { NewOnCall sampleParams with OnCallResponders := Slice.mk ["Jane Doe"] }
       out := [] }).2.1 (by decide),
   by decide⟩

/-! ## The zero value as "not found" -/

theorem GetScheduleID_fresh_exit_iff (w : World) (params : Params) (out : List Event)
    (hok : (w.schedules graphqlEndpoint (NewOnCall params).AccessToken
      (GetScheduleID.variables (NewOnCall params))).1 = none) :
    ((∃ status m', GetScheduleID w { oc := NewOnCall params, out := out } =
        Outcome.exited status m') ↔
      ((∀ s ∈ (w.schedules graphqlEndpoint (NewOnCall params).AccessToken
          (GetScheduleID.variables (NewOnCall params))).2.Schedules,
          s.Name ≠ params.ScheduleName) ∨
        ∃ s, firstSchedule params.ScheduleName
          (w.schedules graphqlEndpoint (NewOnCall params).AccessToken
            (GetScheduleID.variables (NewOnCall params))).2.Schedules = some s ∧ s.ID = 0)) ∧
    (∀ status m', GetScheduleID w { oc := NewOnCall params, out := out } =
        Outcome.exited status m' →
      status = 1 ∧
      m'.out = out ++ [Event.graphql graphqlEndpoint (NewOnCall params).AccessToken
          (GetScheduleID.variables (NewOnCall params)),
        Event.fatal ("Schedule of name: " ++ params.ScheduleName ++ " doesn't exist")]) := by
  have hn : (NewOnCall params).ScheduleName = params.ScheduleName := rfl
  rw [GetScheduleID_eq]
  simp only [hok, GetScheduleID_loop_eq, hn, ← firstSchedule_eq_none]
  cases hfirst : firstSchedule params.ScheduleName
      (w.schedules graphqlEndpoint (NewOnCall params).AccessToken
        (GetScheduleID.variables (NewOnCall params))).2.Schedules with
  | none =>
    simp only [hn]
    have h0 : (NewOnCall params).ScheduleID = 0 := rfl
    simp only [h0, if_true]
    refine ⟨⟨fun _ => Or.inl trivial, fun _ => ⟨_, _, rfl⟩⟩, ?_⟩
    intro status m' h
    simp only [Outcome.exited.injEq] at h
    obtain ⟨h1, h2⟩ := h
    subst h1 h2
    exact ⟨rfl, rfl⟩
  | some s =>
    simp only [hn]
    by_cases hz : s.ID = 0
    · simp only [hz, if_true]
      refine ⟨⟨fun _ => Or.inr ⟨s, rfl, hz⟩, fun _ => ⟨_, _, rfl⟩⟩, ?_⟩
      intro status m' h
      simp only [Outcome.exited.injEq] at h
      obtain ⟨h1, h2⟩ := h
      subst h1 h2
      exact ⟨rfl, rfl⟩
    · simp only [hz, if_false]
      refine ⟨⟨fun h => ?_, fun h => ?_⟩, ?_⟩
      · obtain ⟨_, _, h⟩ := h
        simp at h
      · rcases h with h | ⟨s', hs', hz'⟩
        · simp at h
        · simp only [Option.some.injEq] at hs'
          subst hs'
          exact absurd hz' hz
      · intro status m' h
        simp at h

theorem GetTeamID_fresh_exit_iff (w : World) (params : Params) (out : List Event)
    (hok : (w.teams (GetTeamID.request (NewOnCall params))).err = none) :
    ((∃ status m', GetTeamID w { oc := NewOnCall params, out := out } =
        Outcome.exited status m') ↔
      ((∀ t ∈ (w.teams (GetTeamID.request (NewOnCall params))).resp.Data,
          t.Name ≠ params.TeamName) ∨
        ∃ t, firstTeam params.TeamName
          (w.teams (GetTeamID.request (NewOnCall params))).resp.Data = some t ∧ t.ID = "")) ∧
    (∀ status m', GetTeamID w { oc := NewOnCall params, out := out } =
        Outcome.exited status m' →
      status = 1 ∧
      m'.out = out ++ [Event.http (GetTeamID.request (NewOnCall params)),
        Event.fatal ("Team of name: " ++ params.TeamName ++ " doesn't exist")]) := by
  have hn : (NewOnCall params).TeamName = params.TeamName := rfl
  rw [GetTeamID_eq]
  simp only [hok, GetTeamID_loop_eq, hn, ← firstTeam_eq_none]
  cases hfirst : firstTeam params.TeamName
      (w.teams (GetTeamID.request (NewOnCall params))).resp.Data with
  | none =>
    simp only [hn]
    have h0 : (NewOnCall params).TeamID = "" := rfl
    simp only [h0, if_true]
    refine ⟨⟨fun _ => Or.inl trivial, fun _ => ⟨_, _, rfl⟩⟩, ?_⟩
    intro status m' h
    simp only [Outcome.exited.injEq] at h
    obtain ⟨h1, h2⟩ := h
    subst h1 h2
    exact ⟨rfl, rfl⟩
  | some t =>
    simp only [hn]
    by_cases hz : t.ID = ""
    · simp only [hz, if_true]
      refine ⟨⟨fun _ => Or.inr ⟨t, rfl, hz⟩, fun _ => ⟨_, _, rfl⟩⟩, ?_⟩
      intro status m' h
      simp only [Outcome.exited.injEq] at h
      obtain ⟨h1, h2⟩ := h
      subst h1 h2
      exact ⟨rfl, rfl⟩
    · simp only [hz, if_false]
      refine ⟨⟨fun h => ?_, fun h => ?_⟩, ?_⟩
      · obtain ⟨_, _, h⟩ := h
        simp at h
      · rcases h with h | ⟨t', ht', hz'⟩
        · simp at h
        · simp only [Option.some.injEq] at ht'
          subst ht'
          exact absurd hz' hz
      · intro status m' h
        simp at h

/-- C9: on a session freshly built by `NewOnCall` and a successful query,
`GetScheduleID` exits if and only if no returned entry has the configured
schedule name or the first returned entry with that name has ID 0, and when it
exits the fatal message is "Schedule of name: <name> doesn't exist"; likewise,
after a successful teams request, `GetTeamID` exits if and only if no entry has
the configured team name or the first such entry has the empty string as ID,
with the message "Team of name: <name> doesn't exist". -/
theorem resolvers_fail_iff_zero_value (w : World) (params : Params) (out : List Event) :
    ((w.schedules graphqlEndpoint (NewOnCall params).AccessToken
        (GetScheduleID.variables (NewOnCall params))).1 = none →
      ((∃ status m', GetScheduleID w { oc := NewOnCall params, out := out } =
          Outcome.exited status m') ↔
        ((∀ s ∈ (w.schedules graphqlEndpoint (NewOnCall params).AccessToken
            (GetScheduleID.variables (NewOnCall params))).2.Schedules,
            s.Name ≠ params.ScheduleName) ∨
          ∃ s, firstSchedule params.ScheduleName
            (w.schedules graphqlEndpoint (NewOnCall params).AccessToken
              (GetScheduleID.variables (NewOnCall params))).2.Schedules = some s ∧
            s.ID = 0)) ∧
      (∀ status m', GetScheduleID w { oc := NewOnCall params, out := out } =
          Outcome.exited status m' →
        status = 1 ∧
        m'.out = out ++ [Event.graphql graphqlEndpoint (NewOnCall params).AccessToken
            (GetScheduleID.variables (NewOnCall params)),
          Event.fatal ("Schedule of name: " ++ params.ScheduleName ++ " doesn't exist")])) ∧
    ((w.teams (GetTeamID.request (NewOnCall params))).err = none →
      ((∃ status m', GetTeamID w { oc := NewOnCall params, out := out } =
          Outcome.exited status m') ↔
        ((∀ t ∈ (w.teams (GetTeamID.request (NewOnCall params))).resp.Data,
            t.Name ≠ params.TeamName) ∨
          ∃ t, firstTeam params.TeamName
            (w.teams (GetTeamID.request (NewOnCall params))).resp.Data = some t ∧
            t.ID = "")) ∧
      (∀ status m', GetTeamID w { oc := NewOnCall params, out := out } =
          Outcome.exited status m' →
        status = 1 ∧
        m'.out = out ++ [Event.http (GetTeamID.request (NewOnCall params)),
          Event.fatal ("Team of name: " ++ params.TeamName ++ " doesn't exist")])) :=
  ⟨GetScheduleID_fresh_exit_iff w params out, GetTeamID_fresh_exit_iff w params out⟩

/-- Two runs of C9: a schedule `primary` with ID 0 makes `GetScheduleID` exit
although the name matches, and a team `B` with an empty ID makes `GetTeamID`
exit although the name matches. -/
theorem resolvers_fail_iff_zero_value_witness :
    (zeroScheduleIDWorld.schedules graphqlEndpoint (NewOnCall sampleParams).AccessToken
      (GetScheduleID.variables (NewOnCall sampleParams))).1 = none ∧
    (∃ status m', GetScheduleID zeroScheduleIDWorld { oc := NewOnCall sampleParams, out := [] } =
      Outcome.exited status m') ∧
    (emptyTeamIDWorld.teams (GetTeamID.request (NewOnCall sampleParams))).err = none ∧
    (∃ status m', GetTeamID emptyTeamIDWorld { oc := NewOnCall sampleParams, out := [] } =
      Outcome.exited status m') :=
  ⟨by decide,
   ((resolvers_fail_iff_zero_value zeroScheduleIDWorld sampleParams []).1 (by decide)).1.mpr
     (Or.inr ⟨{ Name := "primary", ID := 0 }, by decide, rfl⟩),
   by decide,
   ((resolvers_fail_iff_zero_value emptyTeamIDWorld sampleParams []).2 (by decide)).1.mpr
     (Or.inr ⟨{ ID := "", Name := "B" }, by decide, rfl⟩)⟩

/-! ## Fail-fast propagation -/

theorem requests_before_notify_are_not_posts (oc : OnCall) :
    (Event.http (GetAccessToken.request oc)).isPost = false ∧
    (Event.http (GetTeamID.request oc)).isPost = false ∧
    (Event.http (GetOnCallPeople.request oc)).isPost = false ∧
    (∀ token vars, (Event.graphql graphqlEndpoint token vars).isPost = false) ∧
    (∀ msg, (Event.fatal msg).isPost = false) := by
  refine ⟨?_, ?_, ?_, fun _ _ => rfl, fun _ => rfl⟩ <;>
    simp [Event.isPost, GetAccessToken.request, GetTeamID.request, GetOnCallPeople.request]

/-- C5: in a run of the five stages from the session `NewOnCall` builds, if the
stages before stage `k` returned, leaving machine `m`, and stage `k` ends the
process with `status` in machine `m'`, then the whole run ends in exactly that
outcome (no later stage adds anything), the status is 1, the session is as the
failing stage found it, the last thing emitted is the request of that stage
followed by its fatal message, and unless the failing stage is `NotifySlack`
itself nothing emitted in the whole run is a webhook POST. -/
theorem run_fail_fast (w : World) (params : Params) (k : Nat) (hk : k < stages.length)
    (m m' : Machine) (status : Nat)
    (hbefore : runStages w (stages.take k) { oc := NewOnCall params, out := [] } =
      Outcome.returned m)
    (hfail : stages.get ⟨k, hk⟩ w m = Outcome.exited status m') :
    run w params = Outcome.exited status m' ∧
    status = 1 ∧
    m'.oc = m.oc ∧
    (∃ ev msg, m'.out = m.out ++ [ev, Event.fatal msg]) ∧
    (k < 4 → ∀ e ∈ m'.out, e.isPost = false) := by
  have hk5 : k < 5 := hk
  interval_cases k
  · have hp : Outcome.returned { oc := NewOnCall params, out := [] } = Outcome.returned m :=
      hbefore
    simp only [Outcome.returned.injEq] at hp
    subst hp
    have hf : GetAccessToken w { oc := NewOnCall params, out := [] } =
      Outcome.exited status m' := hfail
    obtain ⟨hs, hoc, msg, hout⟩ := GetAccessToken_exited hf
    refine ⟨?_, hs, hoc, ⟨_, msg, hout⟩, ?_⟩
    · simp only [run, stages, runStages, hf, Outcome.andThen]
    · intro _ e he
      rw [hout] at he
      have hnp := requests_before_notify_are_not_posts (NewOnCall params)
      simp only [List.nil_append, List.mem_cons, List.mem_singleton, List.not_mem_nil,
        or_false] at he
      rcases he with he | he <;> subst he
      · exact hnp.1
      · rfl
  · have hp : (GetAccessToken w { oc := NewOnCall params, out := [] }).andThen
        Outcome.returned = Outcome.returned m := hbefore
    obtain ⟨m1, h1, hm⟩ := andThen_returned hp
    simp only [Outcome.returned.injEq] at hm
    subst hm
    have hf : GetTeamID w m1 = Outcome.exited status m' := hfail
    obtain ⟨hoc1, hout1⟩ := GetAccessToken_returned h1
    have hfresh : m1.oc.TeamID = "" := by rw [hoc1]; rfl
    obtain ⟨hs, hoc, msg, hout⟩ := GetTeamID_exited hfresh hf
    refine ⟨?_, hs, hoc, ⟨_, msg, hout⟩, ?_⟩
    · simp only [run, stages, runStages, h1, hf, Outcome.andThen]
    · intro _ e he
      rw [hout, hout1] at he
      simp only [List.nil_append, List.mem_append, List.mem_cons, List.mem_singleton,
        List.not_mem_nil, or_false] at he
      rcases he with he | he | he <;> subst he
      · exact (requests_before_notify_are_not_posts _).1
      · exact (requests_before_notify_are_not_posts _).2.1
      · rfl
  · have hp : (GetAccessToken w { oc := NewOnCall params, out := [] }).andThen
        (fun m1 => (GetTeamID w m1).andThen Outcome.returned) = Outcome.returned m := hbefore
    obtain ⟨m1, h1, hp2⟩ := andThen_returned hp
    obtain ⟨m2, h2, hm⟩ := andThen_returned hp2
    simp only [Outcome.returned.injEq] at hm
    subst hm
    have hf : GetScheduleID w m2 = Outcome.exited status m' := hfail
    obtain ⟨hoc1, hout1⟩ := GetAccessToken_returned h1
    obtain ⟨hoc2, hout2⟩ := GetTeamID_returned h2
    have hfresh : m2.oc.ScheduleID = 0 := by rw [hoc2, hoc1]; rfl
    obtain ⟨hs, hoc, msg, hout⟩ := GetScheduleID_exited hfresh hf
    refine ⟨?_, hs, hoc, ⟨_, msg, hout⟩, ?_⟩
    · simp only [run, stages, runStages, h1, h2, hf, Outcome.andThen]
    · intro _ e he
      rw [hout, hout2, hout1] at he
      simp only [List.nil_append, List.mem_append, List.mem_cons, List.mem_singleton,
        List.not_mem_nil, or_false] at he
      rcases he with (he | he) | he | he <;> subst he
      · exact (requests_before_notify_are_not_posts _).1
      · exact (requests_before_notify_are_not_posts _).2.1
      · rfl
      · rfl
  · have hp : (GetAccessToken w { oc := NewOnCall params, out := [] }).andThen
        (fun m1 => (GetTeamID w m1).andThen
          (fun m2 => (GetScheduleID w m2).andThen Outcome.returned)) =
        Outcome.returned m := hbefore
    obtain ⟨m1, h1, hp2⟩ := andThen_returned hp
    obtain ⟨m2, h2, hp3⟩ := andThen_returned hp2
    obtain ⟨m3, h3, hm⟩ := andThen_returned hp3
    simp only [Outcome.returned.injEq] at hm
    subst hm
    have hf : GetOnCallPeople w m3 = Outcome.exited status m' := hfail
    obtain ⟨_, hout1⟩ := GetAccessToken_returned h1
    obtain ⟨_, hout2⟩ := GetTeamID_returned h2
    obtain ⟨_, hout3⟩ := GetScheduleID_returned h3
    obtain ⟨hs, hoc, msg, hout⟩ := GetOnCallPeople_exited hf
    refine ⟨?_, hs, hoc, ⟨_, msg, hout⟩, ?_⟩
    · simp only [run, stages, runStages, h1, h2, h3, hf, Outcome.andThen]
    · intro _ e he
      rw [hout, hout3, hout2, hout1] at he
      simp only [List.nil_append, List.mem_append, List.mem_cons, List.mem_singleton,
        List.not_mem_nil, or_false] at he
      rcases he with ((he | he) | he) | he | he <;> subst he
      · exact (requests_before_notify_are_not_posts _).1
      · exact (requests_before_notify_are_not_posts _).2.1
      · rfl
      · exact (requests_before_notify_are_not_posts _).2.2.1
      · rfl
  · have hp : (GetAccessToken w { oc := NewOnCall params, out := [] }).andThen
        (fun m1 => (GetTeamID w m1).andThen
          (fun m2 => (GetScheduleID w m2).andThen
            (fun m3 => (GetOnCallPeople w m3).andThen Outcome.returned))) =
        Outcome.returned m := hbefore
    obtain ⟨m1, h1, hp2⟩ := andThen_returned hp
    obtain ⟨m2, h2, hp3⟩ := andThen_returned hp2
    obtain ⟨m3, h3, hp4⟩ := andThen_returned hp3
    obtain ⟨m4, h4, hm⟩ := andThen_returned hp4
    simp only [Outcome.returned.injEq] at hm
    subst hm
    have hf : NotifySlack w m4 = Outcome.exited status m' := hfail
    obtain ⟨hs, hoc, msg, hout⟩ := NotifySlack_exited hf
    refine ⟨?_, hs, hoc, ⟨_, msg, hout⟩, ?_⟩
    · simp only [run, stages, runStages, h1, h2, h3, h4, hf, Outcome.andThen]
    · intro h; omega

/-- A run of C5: the teams request is refused, so the run ends at `GetTeamID`
with its fatal message; the session still holds only the access token, and no
POST was sent. -/
theorem run_fail_fast_witness :
    runStages teamsRefusedWorld (stages.take 1) { oc := NewOnCall sampleParams, out := [] } =
      Outcome.returned
        { oc := { NewOnCall sampleParams with AccessToken := "tok" }
          out := [Event.http (GetAccessToken.request (NewOnCall sampleParams))] } ∧
    run teamsRefusedWorld sampleParams =
      Outcome.exited 1
        { oc := { NewOnCall sampleParams with AccessToken := "tok" }
          out := [Event.http (GetAccessToken.request (NewOnCall sampleParams)),
                  Event.http (GetTeamID.request
                    { NewOnCall sampleParams with AccessToken := "tok" }),
                  Event.fatal "401 Unauthorized : invalid token"] } ∧
    ∀ e ∈ [Event.http (GetAccessToken.request (NewOnCall sampleParams)),
           Event.http (GetTeamID.request { NewOnCall sampleParams with AccessToken := "tok" }),
           Event.fatal "401 Unauthorized : invalid token"], e.isPost = false :=
  have h := run_fail_fast teamsRefusedWorld sampleParams 1 (by decide)
    { oc := { NewOnCall sampleParams with AccessToken := "tok" }
      out := [Event.http (GetAccessToken.request (NewOnCall sampleParams))] }
    { oc := { NewOnCall sampleParams with AccessToken := "tok" }
      out := [Event.http (GetAccessToken.request (NewOnCall sampleParams)),
              Event.http (GetTeamID.request
                { NewOnCall sampleParams with AccessToken := "tok" }),
              Event.fatal "401 Unauthorized : invalid token"] }
    1 (by decide) (by decide)
  ⟨by decide, h.1, h.2.2.2.2 (by decide)⟩

/-! ## Frame of each stage -/

/-- C10: when it returns, `GetAccessToken` changes only `AccessToken`,
`GetTeamID` only `TeamID`, `GetScheduleID` only `ScheduleID`, `GetOnCallPeople`
only `OnCallResponders`, which becomes the previous list followed by the newly
fetched names, and `NotifySlack` changes no field of the session; so every stage
leaves the configured inputs `RefreshToken`, `ScheduleName`, `TeamName` and
`SlackWebhookURL` as they were, and these are the values `NewOnCall` copied from
the configuration. -/
theorem stages_change_only_their_field (w : World) (m m' : Machine) :
    (GetAccessToken w m = Outcome.returned m' →
      m'.oc = { m.oc with AccessToken := m'.oc.AccessToken }) ∧
    (GetTeamID w m = Outcome.returned m' →
      m'.oc = { m.oc with TeamID := m'.oc.TeamID }) ∧
    (GetScheduleID w m = Outcome.returned m' →
      m'.oc = { m.oc with ScheduleID := m'.oc.ScheduleID }) ∧
    (GetOnCallPeople w m = Outcome.returned m' →
      m'.oc = { m.oc with OnCallResponders := m'.oc.OnCallResponders } ∧
      m'.oc.OnCallResponders.elems =
        m.oc.OnCallResponders.elems ++
          (w.oncall (GetOnCallPeople.request m.oc)).resp.Data.flatMap
            (fun d => d.Oncall.map (fun p => p.FirstName ++ " " ++ p.LastName))) ∧
    (NotifySlack w m = Outcome.returned m' → m'.oc = m.oc) ∧
    (∀ stage ∈ [GetAccessToken, GetTeamID, GetScheduleID, GetOnCallPeople, NotifySlack],
      stage w m = Outcome.returned m' → configOf m'.oc = configOf m.oc) ∧
    (∀ params : Params, configOf (NewOnCall params) = params) := by
  refine ⟨fun h => (GetAccessToken_returned h).1, fun h => (GetTeamID_returned h).1,
    fun h => (GetScheduleID_returned h).1,
    fun h => ⟨(GetOnCallPeople_returned h).1, (GetOnCallPeople_returned h).2.1⟩,
    fun h => (NotifySlack_returned h).1, ?_, fun _ => rfl⟩
  intro stage hstage h
  simp only [List.mem_cons, List.mem_singleton, List.not_mem_nil, or_false] at hstage
  rcases hstage with hs | hs | hs | hs | hs <;> subst hs
  · rw [(GetAccessToken_returned h).1]; rfl
  · rw [(GetTeamID_returned h).1]; rfl
  · rw [(GetScheduleID_returned h).1]; rfl
  · rw [(GetOnCallPeople_returned h).1]; rfl
  · rw [(NotifySlack_returned h).1]

/-- Runs of C10 in `sampleWorld`: each stage returns on the session given to
it and changes only its own field; `GetOnCallPeople` on a session that already
lists Jane Doe appends the fetched name to the list. -/
theorem stages_change_only_their_field_witness :
    (GetAccessToken sampleWorld { oc := NewOnCall sampleParams, out := [] } =
        Outcome.returned
          { oc := { NewOnCall sampleParams with AccessToken := "tok" }
            out := [Event.http (GetAccessToken.request (NewOnCall sampleParams))] } ∧
      { NewOnCall sampleParams with AccessToken := "tok" } =
        { NewOnCall sampleParams with AccessToken := "tok" }) ∧
    (GetTeamID sampleWorld { oc := NewOnCall sampleParams, out := [] } =
        Outcome.returned
          { oc := { NewOnCall sampleParams with TeamID := "t2" }
            out := [Event.http (GetTeamID.request (NewOnCall sampleParams))] } ∧
      { NewOnCall sampleParams with TeamID := "t2" } =
        { NewOnCall sampleParams with TeamID := "t2" }) ∧
    (GetScheduleID sampleWorld { oc := NewOnCall sampleParams, out := [] } =
        Outcome.returned
          { oc := { NewOnCall sampleParams with ScheduleID := 1936 }
            out := [Event.graphql graphqlEndpoint ""
              (GetScheduleID.variables (NewOnCall sampleParams))] } ∧
      { NewOnCall sampleParams with ScheduleID := 1936 } =
        { NewOnCall sampleParams with ScheduleID := 1936 }) ∧
    (GetOnCallPeople sampleWorld
        { oc := { NewOnCall sampleParams with OnCallResponders := Slice.mk ["Jane Doe"] }
          out := [] } =
        Outcome.returned
          { oc := { NewOnCall sampleParams with
                      OnCallResponders := Slice.mk ["Jane Doe", "Jane Doe"] }
            out := [Event.http (GetOnCallPeople.request
              { NewOnCall sampleParams with OnCallResponders := Slice.mk ["Jane Doe"] })] } ∧
      { NewOnCall sampleParams with OnCallResponders := Slice.mk ["Jane Doe", "Jane Doe"] } =
        { NewOnCall sampleParams with OnCallResponders := Slice.mk ["Jane Doe", "Jane Doe"] } ∧
      ["Jane Doe", "Jane Doe"] =
        ["Jane Doe"] ++
          (sampleWorld.oncall (GetOnCallPeople.request
            { NewOnCall sampleParams with
                OnCallResponders := Slice.mk ["Jane Doe"] })).resp.Data.flatMap
            (fun d => d.Oncall.map (fun p => p.FirstName ++ " " ++ p.LastName))) ∧
    (NotifySlack sampleWorld { oc := NewOnCall sampleParams, out := [] } =
        Outcome.returned
          { oc := NewOnCall sampleParams
            out := [Event.http (NotifySlack.request (NewOnCall sampleParams))] } ∧
      NewOnCall sampleParams = NewOnCall sampleParams) ∧
    configOf { NewOnCall sampleParams with TeamID := "t2" } = sampleParams :=
  ⟨⟨by decide,
    (stages_change_only_their_field sampleWorld
      { oc := NewOnCall sampleParams, out := [] }
      { oc := { NewOnCall sampleParams with AccessToken := "tok" }
        out := [Event.http (GetAccessToken.request (NewOnCall sampleParams))] }).1
      (by decide)⟩,
   ⟨by decide,
    (stages_change_only_their_field sampleWorld
      { oc := NewOnCall sampleParams, out := [] }
      { oc := { NewOnCall sampleParams with TeamID := "t2" }
        out := [Event.http (GetTeamID.request (NewOnCall sampleParams))] }).2.1
      (by decide)⟩,
   ⟨by decide,
    (stages_change_only_their_field sampleWorld
      { oc := NewOnCall sampleParams, out := [] }
      { oc := { NewOnCall sampleParams with ScheduleID := 1936 }
        out := [Event.graphql graphqlEndpoint "" (GetScheduleID.variables
          (NewOnCall sampleParams))] }).2.2.1
      (by decide)⟩,
   ⟨by decide,
    (stages_change_only_their_field sampleWorld
      { oc := { NewOnCall sampleParams with OnCallResponders := Slice.mk ["Jane Doe"] }
        out := [] }
      { oc := { NewOnCall sampleParams with
                  OnCallResponders := Slice.mk ["Jane Doe", "Jane Doe"] }
        out := [Event.http (GetOnCallPeople.request
          { NewOnCall sampleParams with OnCallResponders := Slice.mk ["Jane Doe"] })] }).2.2.2.1
      (by decide)⟩,
   ⟨by decide,
    (stages_change_only_their_field sampleWorld
      { oc := NewOnCall sampleParams, out := [] }
      { oc := NewOnCall sampleParams
        out := [Event.http (NotifySlack.request (NewOnCall sampleParams))] }).2.2.2.2.1
      (by decide)⟩,
   ((stages_change_only_their_field sampleWorld
      { oc := NewOnCall sampleParams, out := [] }
      { oc := { NewOnCall sampleParams with TeamID := "t2" }
        out := [Event.http (GetTeamID.request (NewOnCall sampleParams))] }).2.2.2.2.2.1
      GetTeamID (by simp) (by decide)).trans
    ((stages_change_only_their_field sampleWorld
      { oc := NewOnCall sampleParams, out := [] }
      { oc := NewOnCall sampleParams, out := [] }).2.2.2.2.2.2 sampleParams)⟩

end OnCallSlack
